import Mathlib

/-!
# BitesBay backend: vendor payment controller and lock admin routes

A shallow embedding of `src/controllers/vendorPaymentController.js` and of the
`/locks/*` handlers of `src/routes/adminRoutes.js`.

* JavaScript values are the inductive `JsVal`; finite numbers are read as exact
  rationals and `NaN` is a separate value.
* Every call that leaves the handler (`Vendor.findById`, `Payment.create`,
  `razorpay.orders.create`, `Date.now()`, ...) is answered by an oracle record
  that is universally quantified in the theorems: a call either returns a value
  or throws a `JsError`.  The calls a handler makes are recorded, in order, in
  the `effects` of its `Outcome`.
* The in-memory `Map` `pendingVendorOrderDetails` is an association list with
  `get`, `set`, `delete` and the sweep loop of the source.
-/

set_option autoImplicit false

namespace BitesBay

/-! ## JavaScript values -/

/-- A JavaScript number: `NaN`, or a finite number read as an exact rational. -/
inductive JsNum where
  | nan
  | fin (q : ℚ)

/-- A JavaScript value as it can occur in a JSON request body, in a document
read back from the database, or in a response body (`date` stands for a `Date`
object). -/
inductive JsVal where
  | undefined
  | null
  | bool (b : Bool)
  | num (n : JsNum)
  | str (s : String)
  | date (ms : Int)
  | arr (xs : List JsVal)
  | obj (fields : List (String × JsVal))

/-- A thrown `Error`; only its `message` is read by the handlers. -/
structure JsError where
  message : String

namespace JsVal

/-- ToBoolean: what `!v` and `if (v)` test. -/
def truthy : JsVal → Bool
  | undefined => false
  | null => false
  | bool b => b
  | num .nan => false
  | num (.fin q) => decide (q ≠ 0)
  | str s => decide (s ≠ "")
  | date _ => true
  | arr _ => true
  | obj _ => true

/-- The test `Array.isArray(v)`. -/
def isArray : JsVal → Bool
  | arr _ => true
  | _ => false

/-- Property read `v.name`: a `TypeError` on `undefined` and `null`, the field
of an object literal, `undefined` for a missing field and for the other kinds of
value (none of the names read by the handlers is an own or inherited property of
a boolean, number, string, date or array). -/
def getProp (v : JsVal) (name : String) : Except JsError JsVal :=
  match v with
  | undefined =>
    .error ⟨"Cannot read properties of undefined (reading \x27" ++ name ++ "\x27)"⟩
  | null =>
    .error ⟨"Cannot read properties of null (reading \x27" ++ name ++ "\x27)"⟩
  | obj fields => .ok ((fields.lookup name).getD undefined)
  | _ => .ok undefined

end JsVal

/-- The library functions the handlers rely on and the process configuration. -/
structure Config where
  /-- The value of `process.env.RAZORPAY_KEY_ID`. -/
  razorpayKeyId : String
  /-- The value of `process.env.RAZORPAY_KEY_SECRET`. -/
  razorpayKeySecret : String
  /-- The call `crypto.createHmac("sha256", key).update(msg).digest("hex")`, as a
  function of `key` and `msg`. -/
  hmacSha256Hex : String → String → String
  /-- ECMAScript ToString, used by template literals. -/
  toStr : JsVal → String
  /-- ECMAScript StringToNumber. -/
  strToNum : String → JsNum

/-- ECMAScript ToNumber, as applied by the operator `*`.  A plain object has the
primitive value "[object Object]", which is not a numeric string. -/
def toNumber (cfg : Config) : JsVal → JsNum
  | .undefined => .nan
  | .null => .fin 0
  | .bool b => .fin (if b then 1 else 0)
  | .num n => n
  | .str s => cfg.strToNum s
  | .date ms => .fin ms
  | .arr xs => cfg.strToNum (cfg.toStr (.arr xs))
  | .obj _ => .nan

/-- The product `a * b` of two numbers. -/
def JsNum.mul : JsNum → JsNum → JsNum
  | .fin a, .fin b => .fin (a * b)
  | _, _ => .nan

/-- The function `Math.round`: the nearest integer, ties towards plus infinity. -/
def mathRound : JsNum → JsNum
  | .nan => .nan
  | .fin q => .fin (⌊q + 1 / 2⌋ : ℤ)

/-- The comparison `n <= 0`, false on `NaN`. -/
def JsNum.leZero : JsNum → Bool
  | .nan => false
  | .fin q => decide (q ≤ 0)

/-- The expression `Math.round(total * 100)` of `createVendorRazorpayOrder`. -/
def amountInPaise (cfg : Config) (total : JsVal) : JsNum :=
  mathRound ((toNumber cfg total).mul (.fin 100))

/-! ## The map `pendingVendorOrderDetails` -/

/-- The record `createVendorRazorpayOrder` stores under the gateway order id. -/
structure PendingRecord where
  vendorId : JsVal
  items : JsVal
  total : JsVal
  collectorName : JsVal
  collectorPhone : JsVal
  orderType : JsVal
  timestamp : Int

/-- The `Map` from gateway order id to pending record, in insertion order. -/
abbrev PendingMap := List (String × PendingRecord)

namespace PendingMap

/-- The call `map.get(key)` for a string key. -/
def get (m : PendingMap) (key : String) : Option PendingRecord :=
  m.lookup key

/-- The call `map.set(key, value)`: an existing key keeps its position. -/
def set (m : PendingMap) (key : String) (value : PendingRecord) : PendingMap :=
  if (m.lookup key).isSome then
    m.map (fun e => if e.1 = key then (key, value) else e)
  else
    m ++ [(key, value)]

/-- The call `map.delete(key)`. -/
def delete (m : PendingMap) (key : String) : PendingMap :=
  m.filter (fun e => decide (e.1 ≠ key))

/-- The loop
`for (const [key, value] of map.entries()) if (value.timestamp < cutoff) map.delete(key)`.
Deleting the entry being visited does not disturb the iteration, so the loop
visits every entry of the map as it was when the loop started. -/
def sweep (m : PendingMap) (cutoff : Int) : PendingMap :=
  m.foldl (fun acc e => if e.2.timestamp < cutoff then acc.delete e.1 else acc) m

/-- The call `map.get(v)` for an arbitrary value: the keys are strings, so only a
string can be found. -/
def getVal (m : PendingMap) : JsVal → Option PendingRecord
  | .str k => m.get k
  | _ => none

/-- The call `map.delete(v)` for an arbitrary value. -/
def deleteVal (m : PendingMap) : JsVal → PendingMap
  | .str k => m.delete k
  | _ => m

/-- No key occurs twice, as in every JavaScript `Map`. -/
def WF (m : PendingMap) : Prop :=
  (m.map Prod.fst).Nodup

end PendingMap

/-! ## Responses, documents and effects -/

/-- What a handler sends: the HTTP status (200 unless `res.status` was called)
and the JSON body. -/
structure Response where
  status : Nat
  body : JsVal

/-- The body `{ success: false, message }`. -/
def failureBody (message : String) : JsVal :=
  .obj [("success", .bool false), ("message", .str message)]

/-- The vendor document returned by `Vendor.findById`; only `uniID` is read. -/
structure VendorDoc where
  uniID : JsVal

/-- A user document returned by `User.findOne` or by `save`; only `_id` is read. -/
structure UserDoc where
  _id : JsVal

/-- The payment document returned by `Payment.create`; only `_id` is read. -/
structure PaymentDoc where
  _id : JsVal

/-- The order document returned by `Order.create`; `_id` and `orderNumber` are
read. -/
structure OrderDoc where
  _id : JsVal
  orderNumber : JsVal

/-- The order returned by `razorpay.orders.create`. -/
structure GatewayOrder where
  id : String
  amount : JsVal
  currency : JsVal
  receipt : JsVal

/-- The argument of `razorpay.orders.create`. -/
structure GatewayArgs where
  amount : JsNum
  currency : String
  receipt : String
  payment_capture : Nat

/-- The argument of `new User(...)` for a guest account. -/
structure GuestUserArgs where
  fullName : JsVal
  phone : JsVal
  email : String
  password : String
  type : String
  isVerified : Bool
  uniID : JsVal

/-- The argument of `Payment.create`. -/
structure PaymentArgs where
  userId : JsVal
  amount : JsVal
  status : String
  paymentMethod : String
  razorpayOrderId : JsVal
  razorpayPaymentId : JsVal

/-- The argument of `Order.create`. -/
structure OrderArgs where
  orderNumber : JsVal
  userId : JsVal
  orderType : JsVal
  paymentMethod : String
  collectorName : JsVal
  collectorPhone : JsVal
  items : List JsVal
  total : JsVal
  status : String
  vendorId : JsVal
  isGuest : Bool
  paymentId : JsVal

/-- A call that leaves the handler, with its arguments. -/
inductive Effect where
  | vendorFindById (vendorId : JsVal)
  | razorpayOrdersCreate (args : GatewayArgs)
  | userFindOne (phone : JsVal)
  | userSave (doc : GuestUserArgs)
  | paymentCreate (doc : PaymentArgs)
  | generateOrderNumber (userId vendorId : JsVal)
  | orderCreate (doc : OrderArgs)
  | userPushActiveOrder (userId orderId : JsVal)
  | vendorPushActiveOrder (vendorId orderId : JsVal)

/-- The result of running a handler once: the response sent, the map
`pendingVendorOrderDetails` afterwards and the calls made, in order. -/
structure Outcome where
  response : Response
  pending : PendingMap
  effects : List Effect

/-! ## `createVendorRazorpayOrder` -/

/-- The six fields destructured from `req.body`. -/
structure CreateBody where
  vendorId : JsVal
  items : JsVal
  total : JsVal
  collectorName : JsVal
  collectorPhone : JsVal
  orderType : JsVal

/-- The destructuring `const { vendorId, ..., orderType } = req.body`. -/
def readCreateBody (body : JsVal) : Except JsError CreateBody := do
  let vendorId ← body.getProp "vendorId"
  let items ← body.getProp "items"
  let total ← body.getProp "total"
  let collectorName ← body.getProp "collectorName"
  let collectorPhone ← body.getProp "collectorPhone"
  let orderType ← body.getProp "orderType"
  pure ⟨vendorId, items, total, collectorName, collectorPhone, orderType⟩

/-- The test `items.length === 0` on an array. -/
def itemsEmpty : JsVal → Bool
  | .arr xs => xs.isEmpty
  | _ => false

/-- The test `["dinein", "takeaway"].includes(orderType)`. -/
def orderTypeAllowed : JsVal → Bool
  | .str s => decide (s = "dinein") || decide (s = "takeaway")
  | _ => false

/-- The expression `vendorId.slice(-6)` as it is printed in the receipt. -/
def sliceLast6 (cfg : Config) : JsVal → Except JsError String
  | .str s => .ok (String.mk (s.toList.drop (s.length - 6)))
  | .arr xs => .ok (cfg.toStr (.arr (xs.drop (xs.length - 6))))
  | .undefined => .error ⟨"Cannot read properties of undefined (reading \x27slice\x27)"⟩
  | .null => .error ⟨"Cannot read properties of null (reading \x27slice\x27)"⟩
  | _ => .error ⟨"vendorId.slice is not a function"⟩

/-- What the environment answers during one run of `createVendorRazorpayOrder`. -/
structure CreateOracle where
  /-- The result of `await Vendor.findById(vendorId)`. -/
  vendorFindById : Except JsError (Option VendorDoc)
  /-- The value of `Date.now()` in the receipt. -/
  nowReceipt : Int
  /-- The result of `await razorpay.orders.create(...)`. -/
  ordersCreate : Except JsError GatewayOrder
  /-- The value of `Date.now()` stored as `timestamp`. -/
  nowStored : Int
  /-- The value of `Date.now()` from which `thirtyMinutesAgo` is computed. -/
  nowSweep : Int

/-- The response of the `catch` block of `createVendorRazorpayOrder`. -/
def createFailed : Response :=
  ⟨500, failureBody "Failed to create Razorpay order"⟩

/-- The handler `exports.createVendorRazorpayOrder`, `POST /vendor-payment/create-order`. -/
def createVendorRazorpayOrder (cfg : Config) (o : CreateOracle) (pending : PendingMap)
    (body : JsVal) : Outcome :=
  match readCreateBody body with
  | .error _ => ⟨createFailed, pending, []⟩
  | .ok b =>
    if !b.vendorId.truthy || !b.items.truthy || !b.total.truthy || !b.collectorName.truthy
        || !b.collectorPhone.truthy || !b.orderType.truthy then
      ⟨⟨400, failureBody
        "vendorId, items, total, collectorName, collectorPhone, and orderType are required."⟩,
        pending, []⟩
    else if !b.items.isArray || itemsEmpty b.items then
      ⟨⟨400, failureBody "Items array must not be empty."⟩, pending, []⟩
    else
      match o.vendorFindById with
      | .error _ => ⟨createFailed, pending, [.vendorFindById b.vendorId]⟩
      | .ok none =>
        ⟨⟨404, failureBody "Vendor not found."⟩, pending, [.vendorFindById b.vendorId]⟩
      | .ok (some _) =>
        if !orderTypeAllowed b.orderType then
          ⟨⟨400, failureBody "orderType must be either \x27dinein\x27 or \x27takeaway\x27."⟩,
            pending, [.vendorFindById b.vendorId]⟩
        else if (amountInPaise cfg b.total).leZero then
          ⟨⟨400, failureBody "Invalid amount."⟩, pending, [.vendorFindById b.vendorId]⟩
        else
          match sliceLast6 cfg b.vendorId with
          | .error _ => ⟨createFailed, pending, [.vendorFindById b.vendorId]⟩
          | .ok tail =>
            let receipt := "vendor-" ++ toString o.nowReceipt ++ "-" ++ tail
            let args : GatewayArgs := ⟨amountInPaise cfg b.total, "INR", receipt, 1⟩
            match o.ordersCreate with
            | .error _ =>
              ⟨createFailed, pending, [.vendorFindById b.vendorId, .razorpayOrdersCreate args]⟩
            | .ok razorpayOrder =>
              let stored := pending.set razorpayOrder.id
                ⟨b.vendorId, b.items, b.total, b.collectorName, b.collectorPhone, b.orderType,
                  o.nowStored⟩
              let thirtyMinutesAgo := o.nowSweep - 30 * 60 * 1000
              ⟨⟨200, .obj [("success", .bool true), ("id", .str razorpayOrder.id),
                  ("amount", razorpayOrder.amount), ("currency", razorpayOrder.currency),
                  ("receipt", razorpayOrder.receipt)]⟩,
                stored.sweep thirtyMinutesAgo,
                [.vendorFindById b.vendorId, .razorpayOrdersCreate args]⟩

/-! ## `verifyVendorPayment` -/

/-- The three fields destructured from `req.body`. -/
structure VerifyBody where
  razorpay_order_id : JsVal
  razorpay_payment_id : JsVal
  razorpay_signature : JsVal

/-- The destructuring
`const { razorpay_order_id, razorpay_payment_id, razorpay_signature } = req.body`. -/
def readVerifyBody (body : JsVal) : Except JsError VerifyBody := do
  let orderId ← body.getProp "razorpay_order_id"
  let paymentId ← body.getProp "razorpay_payment_id"
  let signature ← body.getProp "razorpay_signature"
  pure ⟨orderId, paymentId, signature⟩

/-- The value `generatedSignature`: the hex HMAC-SHA256, under the key secret, of
the template literal of order id, a bar and payment id. -/
def generatedSignature (cfg : Config) (b : VerifyBody) : String :=
  cfg.hmacSha256Hex cfg.razorpayKeySecret
    (cfg.toStr b.razorpay_order_id ++ "|" ++ cfg.toStr b.razorpay_payment_id)

/-- The test `generatedSignature !== razorpay_signature`. -/
def signatureDiffers (cfg : Config) (b : VerifyBody) : Bool :=
  match b.razorpay_signature with
  | .str s => decide (generatedSignature cfg b ≠ s)
  | _ => true

/-- The arrow function `item => ({ itemId: item.itemId, kind: item.kind,
quantity: item.quantity })`. -/
def mapItem (item : JsVal) : Except JsError JsVal := do
  let itemId ← item.getProp "itemId"
  let kind ← item.getProp "kind"
  let quantity ← item.getProp "quantity"
  pure (.obj [("itemId", itemId), ("kind", kind), ("quantity", quantity)])

/-- The elements of `items.map(item => ...)`, computed from the first element on;
the first element on which the arrow function throws ends the call. -/
def mapItemList : List JsVal → Except JsError (List JsVal)
  | [] => .ok []
  | item :: rest =>
    match mapItem item with
    | .error e => .error e
    | .ok mapped =>
      match mapItemList rest with
      | .error e => .error e
      | .ok others => .ok (mapped :: others)

/-- The expression `items.map(item => ...)`. -/
def mapItems : JsVal → Except JsError (List JsVal)
  | .arr xs => mapItemList xs
  | .undefined => .error ⟨"Cannot read properties of undefined (reading \x27map\x27)"⟩
  | .null => .error ⟨"Cannot read properties of null (reading \x27map\x27)"⟩
  | _ => .error ⟨"items.map is not a function"⟩

/-- What the environment answers during one run of `verifyVendorPayment`. -/
structure VerifyOracle where
  /-- The result of `await Vendor.findById(vendorId)`. -/
  vendorFindById : Except JsError (Option VendorDoc)
  /-- The result of `await User.findOne({ phone: collectorPhone })`. -/
  userFindOne : Except JsError (Option UserDoc)
  /-- The value of `Date.now()` in the guest email. -/
  nowEmail : Int
  /-- The result of `await guestUser.save()`. -/
  userSave : Except JsError UserDoc
  /-- The result of `await Payment.create(...)`. -/
  paymentCreate : Except JsError PaymentDoc
  /-- The result of `await orderUtils.generateOrderNumber(userId, vendorId)`. -/
  generateOrderNumber : Except JsError JsVal
  /-- The result of `await Order.create(...)`. -/
  orderCreate : Except JsError OrderDoc
  /-- The result of `await User.findByIdAndUpdate(...)`; its value is not read. -/
  userFindByIdAndUpdate : Except JsError Unit
  /-- The result of `await Vendor.findByIdAndUpdate(...)`; its value is not read. -/
  vendorFindByIdAndUpdate : Except JsError Unit

/-- The response of the `catch` block of `verifyVendorPayment`:
`error.message || "Internal server error"`. -/
def verifyFailed (e : JsError) : Response :=
  ⟨500, failureBody (if e.message = "" then "Internal server error" else e.message)⟩

/-- Steps 5 to 9 of `verifyVendorPayment`, once `userId` and `isNewUser` are
known; `done` holds the calls made so far and `existing` tells whether
`existingUser` is truthy. -/
def verifyFinish (o : VerifyOracle) (pending : PendingMap) (b : VerifyBody)
    (d : PendingRecord) (userId : JsVal) (existing : Bool) (done : List Effect) : Outcome :=
  let paymentArgs : PaymentArgs :=
    ⟨userId, d.total, "paid", "razorpay", b.razorpay_order_id, b.razorpay_payment_id⟩
  let done := done ++ [.paymentCreate paymentArgs]
  match o.paymentCreate with
  | .error e => ⟨verifyFailed e, pending, done⟩
  | .ok paymentDoc =>
    let done := done ++ [.generateOrderNumber userId d.vendorId]
    match o.generateOrderNumber with
    | .error e => ⟨verifyFailed e, pending, done⟩
    | .ok orderNumber =>
      match mapItems d.items with
      | .error e => ⟨verifyFailed e, pending, done⟩
      | .ok items =>
        let orderArgs : OrderArgs :=
          ⟨orderNumber, userId, d.orderType, "upi", d.collectorName, d.collectorPhone, items,
            d.total, "inProgress", d.vendorId, true, paymentDoc._id⟩
        let done := done ++ [.orderCreate orderArgs]
        match o.orderCreate with
        | .error e => ⟨verifyFailed e, pending, done⟩
        | .ok newOrder =>
          let done :=
            if existing then done ++ [.userPushActiveOrder userId newOrder._id] else done
          match (if existing then o.userFindByIdAndUpdate else .ok ()) with
          | .error e => ⟨verifyFailed e, pending, done⟩
          | .ok _ =>
            let done := done ++ [.vendorPushActiveOrder d.vendorId newOrder._id]
            match o.vendorFindByIdAndUpdate with
            | .error e => ⟨verifyFailed e, pending, done⟩
            | .ok _ =>
              ⟨⟨200, .obj [("success", .bool true),
                  ("message", .str "Payment successful and order created."),
                  ("orderId", newOrder._id), ("orderNumber", newOrder.orderNumber),
                  ("isNewUser", .bool (!existing))]⟩,
                pending.deleteVal b.razorpay_order_id, done⟩

/-- The handler `exports.verifyVendorPayment`, `POST /vendor-payment/verify`. -/
def verifyVendorPayment (cfg : Config) (o : VerifyOracle) (pending : PendingMap)
    (body : JsVal) : Outcome :=
  match readVerifyBody body with
  | .error e => ⟨verifyFailed e, pending, []⟩
  | .ok b =>
    if signatureDiffers cfg b then
      ⟨⟨400, failureBody "Payment signature verification failed."⟩, pending, []⟩
    else
      match pending.getVal b.razorpay_order_id with
      | none =>
        ⟨⟨400, failureBody
          "Order details not found. Payment may have expired or order was already processed."⟩,
          pending, []⟩
      | some d =>
        match o.vendorFindById with
        | .error e => ⟨verifyFailed e, pending, [.vendorFindById d.vendorId]⟩
        | .ok none =>
          ⟨⟨404, failureBody "Vendor not found."⟩, pending, [.vendorFindById d.vendorId]⟩
        | .ok (some vendor) =>
          let done : List Effect := [.vendorFindById d.vendorId, .userFindOne d.collectorPhone]
          match o.userFindOne with
          | .error e => ⟨verifyFailed e, pending, done⟩
          | .ok (some existingUser) =>
            verifyFinish o pending b d existingUser._id true done
          | .ok none =>
            let guestUser : GuestUserArgs :=
              ⟨d.collectorName, d.collectorPhone,
                "guest_" ++ toString o.nowEmail ++ "@kiitbites.com", "guest_password",
                "user-standard", true, vendor.uniID⟩
            let done := done ++ [.userSave guestUser]
            match o.userSave with
            | .error e => ⟨verifyFailed e, pending, done⟩
            | .ok savedGuestUser =>
              verifyFinish o pending b d savedGuestUser._id false done

/-! ## The lock routes of `adminRoutes.js` -/

/-- The operations the admin routes import from `../utils/orderCleanupUtils` and
`../utils/cacheUtils`: each call returns a value or throws. -/
structure LockCore where
  /-- The call `getLockStatistics()`. -/
  getLockStatistics : Except JsError JsVal
  /-- The call `atomicCache.getDetailedStats()`. -/
  getDetailedStats : Except JsError JsVal
  /-- The call `forceReleaseOrderLocks(orderId)`. -/
  forceReleaseOrderLocks : String → Except JsError JsVal
  /-- The call `cleanupExpiredOrders()`. -/
  cleanupExpiredOrders : Except JsError JsVal
  /-- The call `atomicCache.clearAllLocks()`. -/
  clearAllLocks : Except JsError JsVal
  /-- The call `atomicCache.getLocksForItem(itemId)`. -/
  getLocksForItem : String → Except JsError JsVal

/-- The body of a `catch` block of the admin routes. -/
def adminFailure (message : String) (error : JsError) : Response :=
  ⟨500, .obj [("success", .bool false), ("message", .str message),
    ("error", .str error.message)]⟩

/-- The handler of `GET /locks/stats`. -/
def getLocksStats (core : LockCore) : Response :=
  match core.getLockStatistics with
  | .ok stats =>
    ⟨200, .obj [("success", .bool true), ("data", stats), ("requestedBy", .str "anonymous")]⟩
  | .error error => adminFailure "Failed to get lock statistics" error

/-- The handler of `GET /locks/detailed-stats`. -/
def getLocksDetailedStats (core : LockCore) : Response :=
  match core.getDetailedStats with
  | .ok detailedStats =>
    ⟨200, .obj [("success", .bool true), ("data", detailedStats),
      ("requestedBy", .str "anonymous")]⟩
  | .error error => adminFailure "Failed to get detailed lock statistics" error

/-- The handler of `POST /locks/release/:orderId`; `now` is the value of
`new Date()`. -/
def postLocksRelease (core : LockCore) (orderId : String) (now : Int) : Response :=
  match core.forceReleaseOrderLocks orderId with
  | .ok result =>
    ⟨200, .obj [("success", .bool true), ("data", result), ("requestedBy", .str "anonymous"),
      ("timestamp", .date now)]⟩
  | .error error => adminFailure "Failed to release locks" error

/-- The handler of `POST /locks/cleanup`. -/
def postLocksCleanup (core : LockCore) (now : Int) : Response :=
  match core.cleanupExpiredOrders with
  | .ok result =>
    ⟨200, .obj [("success", .bool true), ("data", result), ("requestedBy", .str "anonymous"),
      ("timestamp", .date now)]⟩
  | .error error => adminFailure "Failed to cleanup expired orders" error

/-- The handler of `POST /locks/clear-all`. -/
def postLocksClearAll (core : LockCore) (now : Int) : Response :=
  match core.clearAllLocks with
  | .ok result =>
    ⟨200, .obj [("success", .bool true), ("data", result), ("requestedBy", .str "anonymous"),
      ("timestamp", .date now)]⟩
  | .error error => adminFailure "Failed to clear all locks" error

/-- The handler of `GET /locks/items/:itemId`. -/
def getLocksItems (core : LockCore) (itemId : String) (now : Int) : Response :=
  match core.getLocksForItem itemId with
  | .ok locks =>
    ⟨200, .obj [("success", .bool true), ("data", locks), ("requestedBy", .str "anonymous"),
      ("timestamp", .date now)]⟩
  | .error error => adminFailure "Failed to get locks for item" error

/-- A request to one of the six lock routes, with its path parameter. -/
inductive LockRoute where
  | stats
  | detailedStats
  | release (orderId : String)
  | cleanup
  | clearAll
  | items (itemId : String)

/-- The core operation a lock route is mapped to, applied to the path parameter. -/
def LockRoute.coreCall (core : LockCore) : LockRoute → Except JsError JsVal
  | .stats => core.getLockStatistics
  | .detailedStats => core.getDetailedStats
  | .release orderId => core.forceReleaseOrderLocks orderId
  | .cleanup => core.cleanupExpiredOrders
  | .clearAll => core.clearAllLocks
  | .items itemId => core.getLocksForItem itemId

/-- The router: the handler registered for each lock route. -/
def LockRoute.handle (core : LockCore) (now : Int) : LockRoute → Response
  | .stats => getLocksStats core
  | .detailedStats => getLocksDetailedStats core
  | .release orderId => postLocksRelease core orderId now
  | .cleanup => postLocksCleanup core now
  | .clearAll => postLocksClearAll core now
  | .items itemId => getLocksItems core itemId now

/-- The routes whose success body carries `timestamp: new Date()`. -/
def LockRoute.stamped : LockRoute → Bool
  | .stats => false
  | .detailedStats => false
  | _ => true

/-- The field `name` of a JSON body, when the body is an object that has it. -/
def JsVal.field (v : JsVal) (name : String) : Option JsVal :=
  match v with
  | .obj fields => fields.lookup name
  | _ => none

/-! ## The lock store and lock manager

The admin routes import the lock manager from `../utils/cacheUtils` and
`../utils/orderCleanupUtils`, which are not among the source files; the
definitions of this section follow sections 3, 4.1, 4.2 and 5 of the
specification. -/

/-- Modelled from the spec: the `Lock` of section 3 (`../utils/cacheUtils` is
missing), an exclusive hold on one item for one checkout, with
`expiresAt = acquiredAt + TTL`. -/
structure Lock where
  itemId : String
  holderId : String
  acquiredAt : Nat
  expiresAt : Nat
  quantity : Nat

/-- Modelled from the spec: the key `(vendorId, itemId)` of the lock store. -/
abbrev LockKey := String × String

/-- Modelled from the spec: the `Lock Store` of section 3 (`../utils/cacheUtils`
is missing), the entries of the mapping from `(vendorId, itemId)` to the current
lock. -/
abbrev LockStore := List (LockKey × Lock)

/-- Modelled from the spec: a lock is live until its `expiresAt` has passed
(section 4.3 sweeps a lock when `expiresAt < now`). -/
def Lock.live (l : Lock) (now : Nat) : Bool :=
  !decide (l.expiresAt < now)

/-- Modelled from the spec: the failure `Conflict` of `tryPut`, carrying the
identity of the existing holder. -/
structure Conflict where
  holderId : String

namespace LockStore

/-- Modelled from the spec: `get(key)` of section 4.1 for acquisition purposes,
where a lock that has expired but is not yet swept counts as absent. -/
def get (s : LockStore) (key : LockKey) (now : Nat) : Option Lock :=
  (s.lookup key).filter (fun l => l.live now)

/-- Modelled from the spec: `tryPut(key, lock)` of section 4.1, which succeeds only
if no live lock exists for `key` and otherwise fails with `Conflict`; one atomic
step.  An expired lock found under `key` is replaced. -/
def tryPut (s : LockStore) (now : Nat) (key : LockKey) (lock : Lock) :
    Except Conflict LockStore :=
  match s.get key now with
  | some existing => .error ⟨existing.holderId⟩
  | none => .ok (s.filter (fun e => decide (e.1 ≠ key)) ++ [(key, lock)])

/-- Modelled from the spec: `remove(key, holderId)` of section 4.1, which removes
the lock only if its holder is `holderId`, and reports `NotHolder` (here `none`)
otherwise. -/
def remove (s : LockStore) (key : LockKey) (holderId : String) : Option LockStore :=
  match s.lookup key with
  | some l =>
    if l.holderId = holderId then some (s.filter (fun e => decide (e.1 ≠ key))) else none
  | none => none

/-- Modelled from the spec: the holders that have a live lock on `key` at `now`,
read off the entries of the store. -/
def liveHolders (s : LockStore) (key : LockKey) (now : Nat) : List String :=
  (s.filter (fun e => decide (e.1 = key) && e.2.live now)).map (fun e => e.2.holderId)

/-- Modelled from the spec: no key has two entries, the store being a mapping. -/
def WF (s : LockStore) : Prop :=
  (s.map Prod.fst).Nodup

end LockStore

/-- Modelled from the spec: the result `Ok | ItemLocked(itemId)` of `acquireLocks`
(section 6). -/
inductive AcquireResult where
  | ok
  | itemLocked (itemId : String)
  deriving DecidableEq

/-- Modelled from the spec: the rollback of section 4.2, which releases the
acquisitions already made in this call. -/
def rollbackLocks (s : LockStore) (holderId : String) : List LockKey → LockStore
  | [] => s
  | key :: rest =>
    rollbackLocks ((s.remove key holderId).getD s) holderId rest

/-- Modelled from the spec: the loop of `acquireLocks` over the items in their
acquisition order; `acquired` lists the keys put so far in this call. -/
def acquireLoop (ttl now : Nat) (holderId vendorId : String) :
    List (String × Nat) → List LockKey → LockStore → AcquireResult × LockStore
  | [], _, s => (.ok, s)
  | (itemId, quantity) :: rest, acquired, s =>
    match s.tryPut now (vendorId, itemId) ⟨itemId, holderId, now, now + ttl, quantity⟩ with
    | .ok s1 => acquireLoop ttl now holderId vendorId rest ((vendorId, itemId) :: acquired) s1
    | .error _ => (.itemLocked itemId, rollbackLocks s holderId acquired)

/-- Modelled from the spec: `acquireLocks(holderId, vendorId, itemSpecs)` of
section 4.2 (`../utils/cacheUtils` is missing): the items are taken sorted by
`itemId`, each is acquired with `tryPut`, and on a conflict the acquisitions of
this call are rolled back and the call fails with `ItemLocked(itemId)`.  By
section 5 the call is atomic as a whole. -/
def acquireLocks (ttl : Nat) (s : LockStore) (now : Nat) (holderId vendorId : String)
    (itemSpecs : List (String × Nat)) : AcquireResult × LockStore :=
  acquireLoop ttl now holderId vendorId
    (itemSpecs.insertionSort (fun a b => a.1 ≤ b.1)) [] s

/-- Modelled from the spec: one acquisition attempt on a single item, by
`holderId` at time `time`. -/
structure Attempt where
  holderId : String
  quantity : Nat
  time : Nat

/-- Modelled from the spec: concurrent attempts on the key `(vendorId, itemId)`
take effect one after the other in some order (section 5: every mutating
operation is atomic with respect to the others); the list gives that order, and
the result is the answer each attempt observes together with the final store. -/
def runAttempts (ttl : Nat) (vendorId itemId : String) :
    LockStore → List Attempt → List AcquireResult × LockStore
  | s, [] => ([], s)
  | s, a :: rest =>
    let r := acquireLocks ttl s a.time a.holderId vendorId [(itemId, a.quantity)]
    let rs := runAttempts ttl vendorId itemId r.2 rest
    (r.1 :: rs.1, rs.2)

/-- The calls of steps 5 to 9 when every one of them returns. -/
def finishCalls (b : VerifyBody) (d : PendingRecord) (userId : JsVal) (existing : Bool)
    (paymentDoc : PaymentDoc) (orderNumber : JsVal) (items : List JsVal) (newOrder : OrderDoc) :
    List Effect :=
  [.paymentCreate ⟨userId, d.total, "paid", "razorpay", b.razorpay_order_id,
      b.razorpay_payment_id⟩,
    .generateOrderNumber userId d.vendorId,
    .orderCreate ⟨orderNumber, userId, d.orderType, "upi", d.collectorName, d.collectorPhone,
      items, d.total, "inProgress", d.vendorId, true, paymentDoc._id⟩] ++
  (if existing then [.userPushActiveOrder userId newOrder._id] else []) ++
  [.vendorPushActiveOrder d.vendorId newOrder._id]


/-! ## Observations on runs -/

/-- The test whether a call is `Order.create`. -/
def Effect.isOrderCreate : Effect → Bool
  | .orderCreate _ => true
  | _ => false

/-- The test whether a call is `Payment.create`. -/
def Effect.isPaymentCreate : Effect → Bool
  | .paymentCreate _ => true
  | _ => false

/-- The number of orders a run of `verifyVendorPayment` has created: its
`Order.create` calls, which count when `Order.create` returns. -/
def ordersCreated (o : VerifyOracle) (out : Outcome) : Nat :=
  match o.orderCreate with
  | .ok _ => out.effects.countP Effect.isOrderCreate
  | .error _ => 0

/-- The number of payments a run of `verifyVendorPayment` has created: its
`Payment.create` calls, which count when `Payment.create` returns. -/
def paymentsCreated (o : VerifyOracle) (out : Outcome) : Nat :=
  match o.paymentCreate with
  | .ok _ => out.effects.countP Effect.isPaymentCreate
  | .error _ => 0

/-- A request to one of the two handlers that touch `pendingVendorOrderDetails`,
with the answers of the environment during its run. -/
inductive Call where
  | create (o : CreateOracle) (body : JsVal)
  | verify (o : VerifyOracle) (body : JsVal)

/-- The run of one request on the map `p`. -/
def Call.run (cfg : Config) (p : PendingMap) : Call → Outcome
  | .create o body => createVendorRazorpayOrder cfg o p body
  | .verify o body => verifyVendorPayment cfg o p body

/-- The request is a `createVendorRazorpayOrder` that succeeds on `p` and stores
its record under the key `k`. -/
def Call.stores (cfg : Config) (p : PendingMap) (k : String) : Call → Prop
  | .create o body =>
    (createVendorRazorpayOrder cfg o p body).response.status = 200 ∧
      ∃ order, o.ordersCreate = .ok order ∧ order.id = k
  | .verify _ _ => False

/-- The map after a sequence of requests, run one after the other. -/
def runCalls (cfg : Config) : PendingMap → List Call → PendingMap
  | p, [] => p
  | p, c :: rest => runCalls cfg (c.run cfg p).pending rest

/-- None of the requests of a sequence run from `p` stores a record under `k`. -/
def neverStores (cfg : Config) (k : String) : PendingMap → List Call → Prop
  | _, [] => True
  | p, c :: rest => ¬ c.stores cfg p k ∧ neverStores cfg k (c.run cfg p).pending rest

/-- The map with the timestamp of every record replaced by `f key record`. -/
def PendingMap.retime (f : String → PendingRecord → Int) (m : PendingMap) : PendingMap :=
  m.map (fun e => (e.1, { e.2 with timestamp := f e.1 e.2 }))

/-- Every call of `verifyVendorPayment` returns and the vendor is found. -/
def VerifyOracle.allReturn (o : VerifyOracle) : Prop :=
  (∃ vendor, o.vendorFindById = .ok (some vendor)) ∧ (∃ found, o.userFindOne = .ok found) ∧
    (∃ saved, o.userSave = .ok saved) ∧ (∃ paymentDoc, o.paymentCreate = .ok paymentDoc) ∧
    (∃ orderNumber, o.generateOrderNumber = .ok orderNumber) ∧
    (∃ newOrder, o.orderCreate = .ok newOrder) ∧ o.userFindByIdAndUpdate = .ok () ∧
    o.vendorFindByIdAndUpdate = .ok ()

/-- The order item `mapped` is `{ itemId, kind, quantity }` read off `item`, every
other field of `item` dropped. -/
def itemMapped (item mapped : JsVal) : Prop :=
  ∃ itemId kind quantity,
    item.getProp "itemId" = .ok itemId ∧ item.getProp "kind" = .ok kind ∧
    item.getProp "quantity" = .ok quantity ∧
    mapped = .obj [("itemId", itemId), ("kind", kind), ("quantity", quantity)]

/-! ## Concrete inputs used in the closed theorems -/

/-- A lock core whose six operations all return `null`. -/
def quietCore : LockCore :=
  ⟨.ok .null, .ok .null, fun _ => .ok .null, .ok .null, .ok .null, fun _ => .ok .null⟩

/-- A lock core whose six operations all throw an error with message "boom". -/
def brokenCore : LockCore :=
  ⟨.error ⟨"boom"⟩, .error ⟨"boom"⟩, fun _ => .error ⟨"boom"⟩, .error ⟨"boom"⟩,
    .error ⟨"boom"⟩, fun _ => .error ⟨"boom"⟩⟩

/-- A configuration for the closed theorems.  Its `hmacSha256Hex` is a stand-in
for the real function: the requests below carry the signature it computes. -/
def demoConfig : Config :=
  ⟨"rzp_test_key", "secret", fun key msg => key ++ ":" ++ msg,
    fun v => match v with
      | .str s => s
      | _ => "",
    fun _ => .nan⟩

/-- A cart item with a field besides `itemId`, `kind` and `quantity`. -/
def demoItem : JsVal :=
  .obj [("itemId", .str "item1"), ("kind", .str "Produce"), ("quantity", .num (.fin 2)),
    ("name", .str "Juice")]

/-- A well-formed body of `POST /vendor-payment/create-order`. -/
def demoCreateBody : JsVal :=
  .obj [("vendorId", .str "64b7f0c2a1d3e4f5a6b7c8d9"), ("items", .arr [demoItem]),
    ("total", .num (.fin 120)), ("collectorName", .str "Asha"),
    ("collectorPhone", .str "9000000000"), ("orderType", .str "takeaway")]

/-- The fields of `demoCreateBody`. -/
def demoCreateFields : CreateBody :=
  ⟨.str "64b7f0c2a1d3e4f5a6b7c8d9", .arr [demoItem], .num (.fin 120), .str "Asha",
    .str "9000000000", .str "takeaway"⟩

/-- The order the gateway returns in the closed theorems. -/
def demoGatewayOrder : GatewayOrder :=
  ⟨"order_1", .num (.fin 12000), .str "INR", .str "vendor-2000000-b7c8d9"⟩

/-- An environment in which the vendor exists and the gateway returns
`demoGatewayOrder`, all at time 2000000. -/
def demoCreateOracle : CreateOracle :=
  ⟨.ok (some ⟨.str "uni1"⟩), 2000000, .ok demoGatewayOrder, 2000000, 2000000⟩

/-- The body `demoCreateBody` with an object as `total`. -/
def objectTotalBody : JsVal :=
  .obj [("vendorId", .str "64b7f0c2a1d3e4f5a6b7c8d9"), ("items", .arr [demoItem]),
    ("total", .obj []), ("collectorName", .str "Asha"),
    ("collectorPhone", .str "9000000000"), ("orderType", .str "takeaway")]

/-- The record stored for `demoCreateBody` at time `t`. -/
def demoRecord (t : Int) : PendingRecord :=
  ⟨.str "64b7f0c2a1d3e4f5a6b7c8d9", .arr [demoItem], .num (.fin 120), .str "Asha",
    .str "9000000000", .str "takeaway", t⟩

/-- A body of `POST /vendor-payment/verify` for the order "order_1", with the
signature `demoConfig` computes. -/
def demoVerifyBody : JsVal :=
  .obj [("razorpay_order_id", .str "order_1"), ("razorpay_payment_id", .str "pay_1"),
    ("razorpay_signature", .str "secret:order_1|pay_1")]

/-- The fields of `demoVerifyBody`. -/
def demoVerifyFields : VerifyBody :=
  ⟨.str "order_1", .str "pay_1", .str "secret:order_1|pay_1"⟩

/-- An environment in which every call returns and no user has the phone number;
the clock reads 5000000 ms. -/
def demoVerifyOracle : VerifyOracle :=
  ⟨.ok (some ⟨.str "uni1"⟩), .ok none, 5000000, .ok ⟨.str "user_9"⟩, .ok ⟨.str "payment_1"⟩,
    .ok (.str "BB-0001"), .ok ⟨.str "ord_1", .str "BB-0001"⟩, .ok (), .ok ()⟩

/-- An environment in which a user with the phone number exists and every call
returns. -/
def knownUserOracle : VerifyOracle :=
  ⟨.ok (some ⟨.str "uni1"⟩), .ok (some ⟨.str "user_3"⟩), 5000000, .ok ⟨.str "user_9"⟩,
    .ok ⟨.str "payment_1"⟩, .ok (.str "BB-0001"), .ok ⟨.str "ord_1", .str "BB-0001"⟩, .ok (),
    .ok ()⟩

/-- An environment in which `Vendor.findByIdAndUpdate` throws after
`Order.create` has returned. -/
def vendorUpdateFails : VerifyOracle :=
  ⟨.ok (some ⟨.str "uni1"⟩), .ok none, 5000000, .ok ⟨.str "user_9"⟩, .ok ⟨.str "payment_1"⟩,
    .ok (.str "BB-0001"), .ok ⟨.str "ord_1", .str "BB-0001"⟩, .ok (),
    .error ⟨"connection lost"⟩⟩

/-! ## Auxiliary lemmas -/

namespace PendingMap

theorem get_nil (k : String) : get [] k = none := rfl

theorem get_cons (a : String) (b : PendingRecord) (m : PendingMap) (k : String) :
    get ((a, b) :: m) k = if k = a then some b else get m k := by
  by_cases h : k = a
  · simp [get, List.lookup, h]
  · have hb : (k == a) = false := by simpa using h
    simp [get, List.lookup, h, hb]

theorem delete_cons (a : String) (b : PendingRecord) (m : PendingMap) (k : String) :
    delete ((a, b) :: m) k = if a = k then delete m k else (a, b) :: delete m k := by
  by_cases h : a = k <;> simp [delete, h]

theorem get_delete_self (m : PendingMap) (k : String) : (m.delete k).get k = none := by
  induction m with
  | nil => rfl
  | cons e m ih =>
    obtain ⟨a, b⟩ := e
    rw [delete_cons]
    by_cases h : a = k
    · rw [if_pos h]; exact ih
    · rw [if_neg h, get_cons, if_neg (fun h3 => h h3.symm)]; exact ih

theorem get_delete_ne (m : PendingMap) (k k2 : String) (hne : k2 ≠ k) :
    (m.delete k).get k2 = m.get k2 := by
  induction m with
  | nil => rfl
  | cons e m ih =>
    obtain ⟨a, b⟩ := e
    rw [delete_cons, get_cons]
    by_cases h : a = k
    · rw [if_pos h, if_neg (fun h3 => hne (h3.trans h))]; exact ih
    · rw [if_neg h, get_cons, ih]

/-- Entries of a filtered map are found exactly when they pass the filter. -/
theorem get_filter (p : String × PendingRecord → Bool) (m : PendingMap) (hm : m.WF)
    (k : String) :
    get (m.filter p) k = (m.get k).filter (fun v => p (k, v)) := by
  induction m with
  | nil => rfl
  | cons e m ih =>
    obtain ⟨a, b⟩ := e
    have hm2 : WF m := (List.nodup_cons.mp hm).2
    have hnot : a ∉ m.map Prod.fst := (List.nodup_cons.mp hm).1
    rw [get_cons]
    by_cases h : k = a
    · subst h
      rw [if_pos rfl]
      by_cases hp : p (k, b) = true
      · rw [List.filter_cons_of_pos hp, get_cons, if_pos rfl]
        simp [Option.filter, hp]
      · rw [List.filter_cons_of_neg hp, ih hm2]
        have hnone : get m k = none := by
          unfold get
          rw [List.lookup_eq_none_iff]
          intro e he
          have hne : k ≠ e.1 := fun hk => hnot (List.mem_map.mpr ⟨e, he, hk.symm⟩)
          simpa using hne
        simp [Option.filter, hp, hnone]
    · rw [if_neg h]
      by_cases hp : p (a, b) = true
      · rw [List.filter_cons_of_pos hp, get_cons, if_neg h, ih hm2]
      · rw [List.filter_cons_of_neg hp, ih hm2]


theorem get_eq_none_of_not_mem (m : PendingMap) (k : String) (h : k ∉ m.map Prod.fst) :
    m.get k = none := by
  unfold get
  rw [List.lookup_eq_none_iff]
  intro e he
  have hne : k ≠ e.1 := fun hk => h (List.mem_map.mpr ⟨e, he, hk.symm⟩)
  simpa using hne

theorem mem_keys_of_get (m : PendingMap) (k : String) (v : PendingRecord)
    (h : m.get k = some v) : (k, v) ∈ m := by
  induction m with
  | nil => simp [get] at h
  | cons e m ih =>
    obtain ⟨a, b⟩ := e
    rw [get_cons] at h
    by_cases hk : k = a
    · rw [if_pos hk] at h
      cases h
      simp [hk]
    · rw [if_neg hk] at h
      exact List.mem_cons_of_mem _ (ih h)

theorem get_of_mem (m : PendingMap) (hm : m.WF) (k : String) (v : PendingRecord)
    (h : (k, v) ∈ m) : m.get k = some v := by
  induction m with
  | nil => simp at h
  | cons e m ih =>
    obtain ⟨a, b⟩ := e
    have hm2 : WF m := (List.nodup_cons.mp hm).2
    have hnot : a ∉ m.map Prod.fst := (List.nodup_cons.mp hm).1
    rw [get_cons]
    rcases List.mem_cons.mp h with h1 | h1
    · cases h1
      rw [if_pos rfl]
    · have hk : k ≠ a := fun hk => hnot (List.mem_map.mpr ⟨(k, v), h1, hk⟩)
      rw [if_neg hk]
      exact ih hm2 h1

theorem WF_filter (p : String × PendingRecord → Bool) (m : PendingMap) (hm : m.WF) :
    WF (m.filter p) := by
  unfold WF at *
  exact hm.sublist ((List.filter_sublist m).map Prod.fst)

theorem WF_delete (m : PendingMap) (hm : m.WF) (k : String) : WF (m.delete k) :=
  WF_filter _ m hm

theorem get_replace (m : PendingMap) (k : String) (v : PendingRecord) (k2 : String) :
    get (m.map (fun e => if e.1 = k then (k, v) else e)) k2 =
      if k2 = k then (m.get k).map (fun _ => v) else m.get k2 := by
  induction m with
  | nil => simp [get]
  | cons e m ih =>
    obtain ⟨a, b⟩ := e
    by_cases ha : a = k
    · have hmap : List.map (fun e => if e.1 = k then (k, v) else e) ((a, b) :: m)
          = (k, v) :: List.map (fun e => if e.1 = k then (k, v) else e) m := by
        simp [ha]
      rw [hmap, get_cons, ih, ha]
      by_cases h2 : k2 = k
      · simp [h2, get_cons]
      · simp [h2, get_cons]
    · have hmap : List.map (fun e => if e.1 = k then (k, v) else e) ((a, b) :: m)
          = (a, b) :: List.map (fun e => if e.1 = k then (k, v) else e) m := by
        simp [ha]
      rw [hmap, get_cons, ih]
      by_cases h2 : k2 = k
      · have h3 : ¬ k2 = a := fun h => ha (h.symm.trans h2)
        have h4 : ¬ k = a := fun h => ha h.symm
        simp [h2, get_cons, h4]
      · simp [h2, get_cons]

theorem get_append_single (m : PendingMap) (k : String) (v : PendingRecord) (k2 : String) :
    get (m ++ [(k, v)]) k2 =
      match m.get k2 with
      | some x => some x
      | none => if k2 = k then some v else none := by
  induction m with
  | nil =>
    show get ((k, v) :: []) k2 = _
    rw [get_cons]
    simp [get]
  | cons e m ih =>
    obtain ⟨a, b⟩ := e
    rw [List.cons_append, get_cons, get_cons, ih]
    by_cases h : k2 = a <;> simp [h]

theorem get_set (m : PendingMap) (k : String) (v : PendingRecord) (k2 : String) :
    (m.set k v).get k2 = if k2 = k then some v else m.get k2 := by
  unfold set
  by_cases h : (List.lookup k m).isSome = true
  · rw [if_pos h, get_replace]
    by_cases h2 : k2 = k
    · obtain ⟨x, hx⟩ := Option.isSome_iff_exists.mp h
      simp [h2, get, hx]
    · simp [h2]
  · rw [if_neg h, get_append_single]
    by_cases h2 : k2 = k
    · subst h2
      have hn : get m k2 = none := by
        unfold get
        cases hl : List.lookup k2 m with
        | none => rfl
        | some x => simp [hl] at h
      simp [hn]
    · simp only [h2, if_false]
      cases get m k2 <;> rfl

theorem WF_set (m : PendingMap) (hm : m.WF) (k : String) (v : PendingRecord) :
    WF (m.set k v) := by
  unfold set
  by_cases h : (List.lookup k m).isSome = true
  · rw [if_pos h]
    unfold WF at *
    have hkeys : List.map Prod.fst (List.map (fun e => if e.1 = k then (k, v) else e) m)
        = List.map Prod.fst m := by
      rw [List.map_map]
      apply List.map_congr_left
      intro e _
      by_cases he : e.1 = k <;> simp [he]
    rw [hkeys]
    exact hm
  · rw [if_neg h]
    unfold WF at *
    rw [List.map_append]
    apply List.Nodup.append hm (by simp)
    intro a ha hb
    have hak : a = k := by simpa using hb
    subst hak
    obtain ⟨e, he, hea⟩ := List.mem_map.mp ha
    have hget : m.get e.1 = some e.2 := get_of_mem m hm e.1 e.2 he
    rw [hea] at hget
    exact h (by simpa [get] using congrArg Option.isSome hget)

/-- The sweep loop deletes from `acc` every key that some visited entry marks as
old. -/
theorem foldl_sweep (c : Int) (l acc : PendingMap) :
    l.foldl (fun acc e => if e.2.timestamp < c then acc.delete e.1 else acc) acc =
      acc.filter (fun e =>
        !(l.any (fun e2 => decide (e2.1 = e.1) && decide (e2.2.timestamp < c)))) := by
  induction l generalizing acc with
  | nil => simp
  | cons x l ih =>
    rw [List.foldl_cons, ih]
    by_cases hx : x.2.timestamp < c
    · rw [if_pos hx]
      unfold delete
      rw [List.filter_filter]
      apply List.filter_congr
      intro e _
      rw [List.any_cons]
      by_cases hk : x.1 = e.1
      · have h1 : decide (e.1 ≠ x.1) = false := by simp [hk]
        have h2 : decide (x.1 = e.1) = true := by simp [hk]
        have h3 : decide (x.2.timestamp < c) = true := by simp [hx]
        rw [h1, h2, h3]
        simp
      · have h1 : decide (e.1 ≠ x.1) = true := by
          simpa using fun h : e.1 = x.1 => hk h.symm
        have h2 : decide (x.1 = e.1) = false := by simp [hk]
        rw [h1, h2]
        simp
    · rw [if_neg hx]
      apply List.filter_congr
      intro e _
      simp [hx]

theorem sweep_eq_filter (m : PendingMap) (hm : m.WF) (c : Int) :
    m.sweep c = m.filter (fun e => !decide (e.2.timestamp < c)) := by
  unfold sweep
  rw [foldl_sweep]
  apply List.filter_congr
  intro e he
  by_cases hts : e.2.timestamp < c
  · have : (m.any fun e2 => decide (e2.1 = e.1) && decide (e2.2.timestamp < c)) = true :=
      List.any_eq_true.mpr ⟨e, he, by simp [hts]⟩
    simp [this, hts]
  · have : (m.any fun e2 => decide (e2.1 = e.1) && decide (e2.2.timestamp < c)) = false := by
      rw [List.any_eq_false]
      intro e2 he2 hcond
      simp only [Bool.and_eq_true, decide_eq_true_eq] at hcond
      have heq : e2 = e := List.inj_on_of_nodup_map hm he2 he hcond.1
      exact hts (heq ▸ hcond.2)
    simp [this, hts]


theorem get_delete_some (m : PendingMap) (k k2 : String) (r : PendingRecord)
    (h : (m.delete k).get k2 = some r) : m.get k2 = some r := by
  by_cases hk : k2 = k
  · subst hk
    rw [get_delete_self] at h
    cases h
  · rwa [get_delete_ne m k k2 hk] at h

theorem get_foldl_sweep_some (c : Int) (k : String) (r : PendingRecord) (l acc : PendingMap)
    (h : get (l.foldl (fun acc e => if e.2.timestamp < c then acc.delete e.1 else acc) acc) k
      = some r) : acc.get k = some r := by
  induction l generalizing acc with
  | nil => exact h
  | cons x l ih =>
    rw [List.foldl_cons] at h
    have h2 := ih _ h
    by_cases hx : x.2.timestamp < c
    · rw [if_pos hx] at h2
      exact get_delete_some _ _ _ _ h2
    · rwa [if_neg hx] at h2

theorem get_sweep_some (m : PendingMap) (c : Int) (k : String) (r : PendingRecord)
    (h : (m.sweep c).get k = some r) : m.get k = some r :=
  get_foldl_sweep_some c k r m m h

theorem get_sweep_none (m : PendingMap) (c : Int) (k : String) (h : m.get k = none) :
    (m.sweep c).get k = none := by
  cases hs : (m.sweep c).get k with
  | none => rfl
  | some r => rw [get_sweep_some m c k r hs] at h; cases h

theorem WF_sweep (m : PendingMap) (hm : m.WF) (c : Int) : WF (m.sweep c) := by
  rw [sweep_eq_filter m hm]
  exact WF_filter _ m hm

theorem get_sweep (m : PendingMap) (hm : m.WF) (c : Int) (k : String) :
    (m.sweep c).get k = (m.get k).filter (fun v => !decide (v.timestamp < c)) := by
  rw [sweep_eq_filter m hm, get_filter _ m hm]

theorem mem_sweep (m : PendingMap) (hm : m.WF) (c : Int) (e : String × PendingRecord)
    (he : e ∈ m.sweep c) : ¬ e.2.timestamp < c := by
  rw [sweep_eq_filter m hm] at he
  simpa using (List.mem_filter.mp he).2

end PendingMap

/-- What a successful run of `createVendorRazorpayOrder` has checked, called and
stored. -/
theorem create_success (cfg : Config) (o : CreateOracle) (p : PendingMap) (body : JsVal)
    (h : (createVendorRazorpayOrder cfg o p body).response.status = 200) :
    ∃ b v tail order,
      readCreateBody body = .ok b ∧
      (b.vendorId.truthy = true ∧ b.items.truthy = true ∧ b.total.truthy = true ∧
        b.collectorName.truthy = true ∧ b.collectorPhone.truthy = true ∧
        b.orderType.truthy = true) ∧
      b.items.isArray = true ∧ itemsEmpty b.items = false ∧
      o.vendorFindById = .ok (some v) ∧
      orderTypeAllowed b.orderType = true ∧
      (amountInPaise cfg b.total).leZero = false ∧
      sliceLast6 cfg b.vendorId = .ok tail ∧
      o.ordersCreate = .ok order ∧
      (createVendorRazorpayOrder cfg o p body).pending =
        (p.set order.id ⟨b.vendorId, b.items, b.total, b.collectorName, b.collectorPhone,
          b.orderType, o.nowStored⟩).sweep (o.nowSweep - 30 * 60 * 1000) ∧
      (createVendorRazorpayOrder cfg o p body).effects =
        [.vendorFindById b.vendorId,
          .razorpayOrdersCreate ⟨amountInPaise cfg b.total, "INR",
            "vendor-" ++ toString o.nowReceipt ++ "-" ++ tail, 1⟩] := by
  unfold createVendorRazorpayOrder at h ⊢
  cases hb : readCreateBody body with
  | error e => simp [hb, createFailed] at h
  | ok b =>
    simp only [hb] at h ⊢
    split at h
    · simp at h
    · rename_i h1
      split at h
      · simp at h
      · rename_i h2
        cases hv : o.vendorFindById with
        | error e => simp [hv, createFailed] at h
        | ok ov =>
          cases ov with
          | none => simp [hv] at h
          | some v =>
            simp only [hv] at h ⊢
            split at h
            · simp at h
            · rename_i h3
              split at h
              · simp at h
              · rename_i h4
                cases hs : sliceLast6 cfg b.vendorId with
                | error e => simp [hs, createFailed] at h
                | ok tail =>
                  simp only [hs] at h ⊢
                  cases hg : o.ordersCreate with
                  | error e => simp [hg, createFailed] at h
                  | ok order =>
                    have h1b : ((((b.vendorId.truthy = true ∧ b.items.truthy = true) ∧
                        b.total.truthy = true) ∧ b.collectorName.truthy = true) ∧
                        b.collectorPhone.truthy = true) ∧ b.orderType.truthy = true := by
                      simpa using h1
                    have h2b : b.items.isArray = true ∧ itemsEmpty b.items = false := by
                      simpa using h2
                    refine ⟨b, v, tail, order, rfl, ?_, h2b.1, h2b.2, rfl, ?_, ?_, hs, rfl,
                      ?_, ?_⟩
                    · exact ⟨h1b.1.1.1.1.1, h1b.1.1.1.1.2, h1b.1.1.1.2, h1b.1.1.2, h1b.1.2,
                        h1b.2⟩
                    · simpa using h3
                    · simpa using h4
                    · simp [h1, h2, h3, h4]
                    · simp [h1, h2, h3, h4]


/-- A run of `createVendorRazorpayOrder` that does not answer 200 answers 400, 404
or 500 and leaves the map as it was. -/
theorem create_failure (cfg : Config) (o : CreateOracle) (p : PendingMap) (body : JsVal)
    (h : (createVendorRazorpayOrder cfg o p body).response.status ≠ 200) :
    ((createVendorRazorpayOrder cfg o p body).response.status = 400 ∨
      (createVendorRazorpayOrder cfg o p body).response.status = 404 ∨
      (createVendorRazorpayOrder cfg o p body).response.status = 500) ∧
      (createVendorRazorpayOrder cfg o p body).pending = p := by
  unfold createVendorRazorpayOrder at h ⊢
  cases hb : readCreateBody body with
  | error e => simp [createFailed]
  | ok b =>
    simp only [hb] at h ⊢
    split
    · simp
    · split
      · simp
      · cases hv : o.vendorFindById with
        | error e => simp [createFailed]
        | ok ov =>
          cases ov with
          | none => simp
          | some v =>
            simp only [hv] at h ⊢
            split
            · simp
            · split
              · simp
              · cases hs : sliceLast6 cfg b.vendorId with
                | error e => simp [createFailed]
                | ok tail =>
                  simp only [hs] at h ⊢
                  cases hg : o.ordersCreate with
                  | error e => simp [createFailed]
                  | ok order =>
                    rename_i h1 h2 h3 h4
                    simp [hg, h1, h2, h3, h4] at h

theorem isArray_nonempty (v : JsVal) (h1 : v.isArray = true) (h2 : itemsEmpty v = false) :
    ∃ xs, v = .arr xs ∧ xs ≠ [] := by
  cases v <;> simp [JsVal.isArray] at h1
  rename_i xs
  refine ⟨xs, rfl, ?_⟩
  intro hx
  simp [itemsEmpty, hx] at h2

theorem verify_not_found (cfg : Config) (o : VerifyOracle) (p : PendingMap)
    (body : JsVal) (b : VerifyBody) (hb : readVerifyBody body = .ok b)
    (hs : signatureDiffers cfg b = false) (hget : p.getVal b.razorpay_order_id = none) :
    verifyVendorPayment cfg o p body =
      ⟨⟨400, failureBody
        "Order details not found. Payment may have expired or order was already processed."⟩,
        p, []⟩ := by
  simp [verifyVendorPayment, hb, hs, hget]

/-- The pending map after a run of `verifyVendorPayment` is the map before, with
the entry of the verified order id deleted when the run answers 200. -/
theorem verifyFinish_pending (o : VerifyOracle) (p : PendingMap) (b : VerifyBody)
    (d : PendingRecord) (userId : JsVal) (existing : Bool) (done : List Effect) :
    (verifyFinish o p b d userId existing done).pending =
      if (verifyFinish o p b d userId existing done).response.status = 200 then
        p.deleteVal b.razorpay_order_id
      else p := by
  unfold verifyFinish
  cases o.paymentCreate <;> simp [verifyFailed]
  cases o.generateOrderNumber <;> simp [verifyFailed]
  cases mapItems d.items <;> simp [verifyFailed]
  cases o.orderCreate <;> simp [verifyFailed]
  cases existing <;> simp [verifyFailed]
  · cases o.vendorFindByIdAndUpdate <;> simp [verifyFailed]
  · cases o.userFindByIdAndUpdate <;> simp [verifyFailed]
    cases o.vendorFindByIdAndUpdate <;> simp [verifyFailed]

theorem verify_pending (cfg : Config) (o : VerifyOracle) (p : PendingMap) (body : JsVal) :
    (verifyVendorPayment cfg o p body).pending =
      if (verifyVendorPayment cfg o p body).response.status = 200 then
        match readVerifyBody body with
        | .ok b => p.deleteVal b.razorpay_order_id
        | .error _ => p
      else p := by
  unfold verifyVendorPayment
  cases hb : readVerifyBody body with
  | error e => simp [verifyFailed]
  | ok b =>
    simp only []
    split
    · simp
    · cases hget : p.getVal b.razorpay_order_id with
      | none => simp
      | some d =>
        simp only []
        cases o.vendorFindById with
        | error e => simp [verifyFailed]
        | ok ov =>
          cases ov with
          | none => simp
          | some vendor =>
            simp only []
            cases o.userFindOne with
            | error e => simp [verifyFailed]
            | ok ou =>
              cases ou with
              | some u => simp only []; exact verifyFinish_pending _ _ _ _ _ _ _
              | none =>
                simp only []
                cases o.userSave with
                | error e => simp [verifyFailed]
                | ok saved => simp only []; exact verifyFinish_pending _ _ _ _ _ _ _


theorem verifyFinish_success (o : VerifyOracle) (p : PendingMap) (b : VerifyBody)
    (d : PendingRecord) (userId : JsVal) (existing : Bool) (done : List Effect)
    (h : (verifyFinish o p b d userId existing done).response.status = 200) :
    ∃ paymentDoc orderNumber items newOrder,
      o.paymentCreate = .ok paymentDoc ∧ o.generateOrderNumber = .ok orderNumber ∧
      mapItems d.items = .ok items ∧ o.orderCreate = .ok newOrder ∧
      (verifyFinish o p b d userId existing done).response.body =
        .obj [("success", .bool true),
          ("message", .str "Payment successful and order created."),
          ("orderId", newOrder._id), ("orderNumber", newOrder.orderNumber),
          ("isNewUser", .bool (!existing))] ∧
      (verifyFinish o p b d userId existing done).effects =
        done ++ finishCalls b d userId existing paymentDoc orderNumber items newOrder := by
  unfold verifyFinish at h ⊢
  cases h1 : o.paymentCreate with
  | error e => simp [h1, verifyFailed] at h
  | ok paymentDoc =>
    simp only [h1] at h ⊢
    cases h2 : o.generateOrderNumber with
    | error e => simp [h2, verifyFailed] at h
    | ok orderNumber =>
      simp only [h2] at h ⊢
      cases h3 : mapItems d.items with
      | error e => simp [h3, verifyFailed] at h
      | ok items =>
        simp only [h3] at h ⊢
        cases h4 : o.orderCreate with
        | error e => simp [h4, verifyFailed] at h
        | ok newOrder =>
          simp only [h4] at h ⊢
          refine ⟨paymentDoc, orderNumber, items, newOrder, rfl, rfl, rfl, rfl, ?_⟩
          cases existing with
          | false =>
            simp only [Bool.false_eq_true, if_false] at h ⊢
            cases h6 : o.vendorFindByIdAndUpdate with
            | error e => simp [h6, verifyFailed] at h
            | ok u => simp [finishCalls]
          | true =>
            simp only [if_true] at h ⊢
            cases h5 : o.userFindByIdAndUpdate with
            | error e => simp [h5, verifyFailed] at h
            | ok u =>
              simp only [h5] at h ⊢
              cases h6 : o.vendorFindByIdAndUpdate with
              | error e => simp [h6, verifyFailed] at h
              | ok u => simp [finishCalls]

/-- Every `Order.create` call of steps 5 to 9 comes after a `Payment.create` that
returned, and its argument is built from the pending record. -/
theorem verifyFinish_orderCreate (o : VerifyOracle) (p : PendingMap) (b : VerifyBody)
    (d : PendingRecord) (userId : JsVal) (existing : Bool) (done : List Effect)
    (hdone : ∀ doc, Effect.orderCreate doc ∉ done) (doc : OrderArgs)
    (h : Effect.orderCreate doc ∈ (verifyFinish o p b d userId existing done).effects) :
    ∃ paymentDoc orderNumber items,
      o.paymentCreate = .ok paymentDoc ∧ o.generateOrderNumber = .ok orderNumber ∧
      mapItems d.items = .ok items ∧
      doc = ⟨orderNumber, userId, d.orderType, "upi", d.collectorName, d.collectorPhone,
        items, d.total, "inProgress", d.vendorId, true, paymentDoc._id⟩ ∧
      Effect.paymentCreate ⟨userId, d.total, "paid", "razorpay", b.razorpay_order_id,
        b.razorpay_payment_id⟩ ∈ (verifyFinish o p b d userId existing done).effects := by
  unfold verifyFinish at h ⊢
  cases h1 : o.paymentCreate with
  | error e => simp [h1, hdone] at h
  | ok paymentDoc =>
    simp only [h1] at h ⊢
    cases h2 : o.generateOrderNumber with
    | error e => simp [h2, hdone] at h
    | ok orderNumber =>
      simp only [h2] at h ⊢
      cases h3 : mapItems d.items with
      | error e => simp [h3, hdone] at h
      | ok items =>
        simp only [h3] at h ⊢
        refine ⟨paymentDoc, orderNumber, items, rfl, rfl, rfl, ?_, ?_⟩
        · cases h4 : o.orderCreate with
          | error e => simpa [h4, hdone] using h
          | ok newOrder =>
            simp only [h4] at h
            cases existing with
            | false =>
              simp only [Bool.false_eq_true, if_false] at h
              cases h6 : o.vendorFindByIdAndUpdate <;> simpa [h6, hdone] using h
            | true =>
              simp only [if_true] at h
              cases h5 : o.userFindByIdAndUpdate with
              | error e => simpa [h5, hdone] using h
              | ok u =>
                simp only [h5] at h
                cases h6 : o.vendorFindByIdAndUpdate <;> simpa [h6, hdone] using h
        · cases h4 : o.orderCreate with
          | error e => simp
          | ok newOrder =>
            simp only []
            cases existing with
            | false =>
              simp only [Bool.false_eq_true, if_false]
              cases h6 : o.vendorFindByIdAndUpdate <;> simp
            | true =>
              simp only [if_true]
              cases h5 : o.userFindByIdAndUpdate with
              | error e => simp
              | ok u =>
                simp only []
                cases h6 : o.vendorFindByIdAndUpdate <;> simp

/-- A run of `verifyVendorPayment` that answers 200 has passed the signature
test, found the pending record and the vendor, and continued with steps 5 to 9
for the user found or for the guest user saved. -/
theorem verify_success (cfg : Config) (o : VerifyOracle) (p : PendingMap) (body : JsVal)
    (h : (verifyVendorPayment cfg o p body).response.status = 200) :
    ∃ b d vendor,
      readVerifyBody body = .ok b ∧ signatureDiffers cfg b = false ∧
      p.getVal b.razorpay_order_id = some d ∧ o.vendorFindById = .ok (some vendor) ∧
      ((∃ u, o.userFindOne = .ok (some u) ∧
          verifyVendorPayment cfg o p body =
            verifyFinish o p b d u._id true
              [.vendorFindById d.vendorId, .userFindOne d.collectorPhone]) ∨
        (o.userFindOne = .ok none ∧ ∃ saved, o.userSave = .ok saved ∧
          verifyVendorPayment cfg o p body =
            verifyFinish o p b d saved._id false
              ([.vendorFindById d.vendorId, .userFindOne d.collectorPhone] ++
                [.userSave ⟨d.collectorName, d.collectorPhone,
                  "guest_" ++ toString o.nowEmail ++ "@kiitbites.com", "guest_password",
                  "user-standard", true, vendor.uniID⟩]))) := by
  unfold verifyVendorPayment at h ⊢
  cases hb : readVerifyBody body with
  | error e => simp [hb, verifyFailed] at h
  | ok b =>
    simp only [hb] at h ⊢
    cases hs : signatureDiffers cfg b with
    | true => simp [hs] at h
    | false =>
      simp only [hs, Bool.false_eq_true, if_false] at h ⊢
      cases hget : p.getVal b.razorpay_order_id with
      | none => simp [hget] at h
      | some d =>
        simp only [hget] at h ⊢
        cases hv : o.vendorFindById with
        | error e => simp [hv, verifyFailed] at h
        | ok ov =>
          cases ov with
          | none => simp [hv] at h
          | some vendor =>
            simp only [hv] at h ⊢
            refine ⟨b, d, vendor, rfl, hs, hget, rfl, ?_⟩
            cases hu : o.userFindOne with
            | error e => simp [hu, verifyFailed] at h
            | ok ou =>
              cases ou with
              | some u => exact Or.inl ⟨u, rfl, by simp⟩
              | none =>
                simp only [hu] at h ⊢
                cases hsave : o.userSave with
                | error e => simp [hsave, verifyFailed] at h
                | ok saved => exact Or.inr ⟨trivial, saved, rfl, by simp⟩

/-- Every `Order.create` call of `verifyVendorPayment` is made with a valid
signature, for the pending record stored under the verified order id, after a
`Payment.create` that returned. -/
theorem verify_orderCreate (cfg : Config) (o : VerifyOracle) (p : PendingMap) (body : JsVal)
    (doc : OrderArgs)
    (h : Effect.orderCreate doc ∈ (verifyVendorPayment cfg o p body).effects) :
    ∃ b d userId paymentDoc orderNumber items,
      readVerifyBody body = .ok b ∧ signatureDiffers cfg b = false ∧
      p.getVal b.razorpay_order_id = some d ∧
      o.paymentCreate = .ok paymentDoc ∧ o.generateOrderNumber = .ok orderNumber ∧
      mapItems d.items = .ok items ∧
      doc = ⟨orderNumber, userId, d.orderType, "upi", d.collectorName, d.collectorPhone,
        items, d.total, "inProgress", d.vendorId, true, paymentDoc._id⟩ ∧
      Effect.paymentCreate ⟨userId, d.total, "paid", "razorpay", b.razorpay_order_id,
        b.razorpay_payment_id⟩ ∈ (verifyVendorPayment cfg o p body).effects := by
  unfold verifyVendorPayment at h ⊢
  cases hb : readVerifyBody body with
  | error e => simp [hb] at h
  | ok b =>
    simp only [hb] at h ⊢
    cases hs : signatureDiffers cfg b with
    | true => simp [hs] at h
    | false =>
      simp only [hs, Bool.false_eq_true, if_false] at h ⊢
      cases hget : p.getVal b.razorpay_order_id with
      | none => simp [hget] at h
      | some d =>
        simp only [hget] at h ⊢
        cases hv : o.vendorFindById with
        | error e => simp [hv] at h
        | ok ov =>
          cases ov with
          | none => simp [hv] at h
          | some vendor =>
            simp only [hv] at h ⊢
            cases hu : o.userFindOne with
            | error e => simp [hu] at h
            | ok ou =>
              cases ou with
              | some u =>
                simp only [hu] at h ⊢
                obtain ⟨pd, num, items, h1, h2, h3, h4, h5⟩ :=
                  verifyFinish_orderCreate o p b d u._id true _ (by simp) doc h
                exact ⟨b, d, u._id, pd, num, items, rfl, hs, hget, h1, h2, h3, h4, h5⟩
              | none =>
                simp only [hu] at h ⊢
                cases hsave : o.userSave with
                | error e => simp [hsave] at h
                | ok saved =>
                  simp only [hsave] at h ⊢
                  obtain ⟨pd, num, items, h1, h2, h3, h4, h5⟩ :=
                    verifyFinish_orderCreate o p b d saved._id false _ (by simp) doc h
                  exact ⟨b, d, saved._id, pd, num, items, rfl, hs, hget, h1, h2, h3, h4, h5⟩

/-! ### Evaluation on the concrete inputs -/

theorem demo_amount : amountInPaise demoConfig (.num (.fin 120)) = .fin 12000 := by
  have h : ⌊(120 : ℚ) * 100 + 1 / 2⌋ = 12000 := by
    rw [Int.floor_eq_iff]
    constructor <;> norm_num
  show JsNum.fin ((⌊(120 : ℚ) * 100 + 1 / 2⌋ : ℤ) : ℚ) = .fin 12000
  rw [h]
  norm_num

theorem demo_readCreateBody : readCreateBody demoCreateBody = .ok demoCreateFields := rfl

theorem demo_readVerifyBody : readVerifyBody demoVerifyBody = .ok demoVerifyFields := rfl

theorem demo_signature : signatureDiffers demoConfig demoVerifyFields = false := by decide

theorem demo_create_status (p : PendingMap) :
    (createVendorRazorpayOrder demoConfig demoCreateOracle p demoCreateBody).response.status
      = 200 := by
  simp [createVendorRazorpayOrder, demo_readCreateBody, demoCreateFields, demoCreateOracle,
    JsVal.truthy, JsVal.isArray, itemsEmpty, orderTypeAllowed, demo_amount, JsNum.leZero,
    sliceLast6]
  rw [if_neg (by norm_num)]

theorem get_deleteVal_none (p : PendingMap) (v : JsVal) (k : String)
    (h : p.get k = none) : (p.deleteVal v).get k = none := by
  cases v <;> simp only [PendingMap.deleteVal] <;> try exact h
  rename_i s
  cases hs : (p.delete s).get k with
  | none => rfl
  | some r => rw [PendingMap.get_delete_some p s k r hs] at h; cases h

theorem verify_keeps_absent (cfg : Config) (o : VerifyOracle) (p : PendingMap) (body : JsVal)
    (k : String) (h : p.get k = none) :
    (verifyVendorPayment cfg o p body).pending.get k = none := by
  rw [verify_pending]
  split
  · split
    · exact get_deleteVal_none p _ k h
    · exact h
  · exact h

theorem create_keeps_absent (cfg : Config) (o : CreateOracle) (p : PendingMap) (body : JsVal)
    (k : String) (h : p.get k = none)
    (hns : ¬ (Call.create o body).stores cfg p k) :
    (createVendorRazorpayOrder cfg o p body).pending.get k = none := by
  by_cases h200 : (createVendorRazorpayOrder cfg o p body).response.status = 200
  · obtain ⟨b, v, tail, order, _, _, _, _, _, _, _, _, hg, hpend, _⟩ :=
      create_success cfg o p body h200
    have hne : k ≠ order.id := by
      intro hk
      exact hns ⟨h200, order, hg, hk.symm⟩
    rw [hpend]
    apply PendingMap.get_sweep_none
    rw [PendingMap.get_set, if_neg hne]
    exact h
  · rw [(create_failure cfg o p body h200).2]
    exact h

theorem run_keeps_absent (cfg : Config) (p : PendingMap) (c : Call) (k : String)
    (h : p.get k = none) (hns : ¬ c.stores cfg p k) : (c.run cfg p).pending.get k = none := by
  cases c with
  | create o body => exact create_keeps_absent cfg o p body k h hns
  | verify o body => exact verify_keeps_absent cfg o p body k h

theorem runCalls_keeps_absent (cfg : Config) (k : String) (calls : List Call) (p : PendingMap)
    (h : p.get k = none) (hns : neverStores cfg k p calls) :
    (runCalls cfg p calls).get k = none := by
  induction calls generalizing p with
  | nil => exact h
  | cons c rest ih =>
    exact ih _ (run_keeps_absent cfg p c k h hns.1) hns.2

theorem verifyFinish_ordersCreated (o : VerifyOracle) (p : PendingMap) (b : VerifyBody)
    (d : PendingRecord) (userId : JsVal) (existing : Bool) (done : List Effect)
    (hdone : done.countP Effect.isOrderCreate = 0)
    (h : (verifyFinish o p b d userId existing done).response.status = 200) :
    ordersCreated o (verifyFinish o p b d userId existing done) = 1 := by
  obtain ⟨pd, num, items, newOrder, _, _, _, h4, _, heff⟩ :=
    verifyFinish_success o p b d userId existing done h
  unfold ordersCreated
  rw [h4, heff]
  simp only [List.countP_append, hdone]
  cases existing <;> simp [finishCalls, Effect.isOrderCreate, List.countP_cons]

theorem verify_ordersCreated (cfg : Config) (o : VerifyOracle) (p : PendingMap) (body : JsVal)
    (h : (verifyVendorPayment cfg o p body).response.status = 200) :
    ordersCreated o (verifyVendorPayment cfg o p body) = 1 := by
  obtain ⟨b, d, vendor, _, _, _, _, hcase⟩ := verify_success cfg o p body h
  rcases hcase with ⟨u, _, heq⟩ | ⟨_, saved, _, heq⟩
  · rw [heq] at h ⊢
    exact verifyFinish_ordersCreated o p b d _ _ _ (by simp [Effect.isOrderCreate]) h
  · rw [heq] at h ⊢
    exact verifyFinish_ordersCreated o p b d _ _ _ (by simp [Effect.isOrderCreate]) h

/-! ### The timestamp is not read by `verifyVendorPayment` -/

theorem get_retime (f : String → PendingRecord → Int) (m : PendingMap) (k : String) :
    (m.retime f).get k = (m.get k).map (fun r => { r with timestamp := f k r }) := by
  induction m with
  | nil => rfl
  | cons e m ih =>
    obtain ⟨a, r⟩ := e
    have hcons : PendingMap.retime f ((a, r) :: m)
        = (a, { r with timestamp := f a r }) :: PendingMap.retime f m := rfl
    rw [hcons, PendingMap.get_cons, PendingMap.get_cons, ih]
    by_cases h : k = a
    · subst h; simp
    · simp [h]

theorem getVal_retime (f : String → PendingRecord → Int) (m : PendingMap) (v : JsVal) :
    (m.retime f).getVal v =
      (m.getVal v).map (fun r =>
        { r with timestamp := match v with
          | .str k => f k r
          | _ => r.timestamp }) := by
  cases v <;> simp [PendingMap.getVal, get_retime]

theorem verifyFinish_retime (o : VerifyOracle) (p q : PendingMap) (b : VerifyBody)
    (d : PendingRecord) (t : Int) (userId : JsVal) (existing : Bool) (done : List Effect) :
    (verifyFinish o q b { d with timestamp := t } userId existing done).response =
        (verifyFinish o p b d userId existing done).response ∧
      (verifyFinish o q b { d with timestamp := t } userId existing done).effects =
        (verifyFinish o p b d userId existing done).effects := by
  unfold verifyFinish
  cases o.paymentCreate <;> simp
  cases o.generateOrderNumber <;> simp
  cases mapItems d.items <;> simp
  cases o.orderCreate <;> simp
  cases existing <;> simp
  · cases o.vendorFindByIdAndUpdate <;> simp
  · cases o.userFindByIdAndUpdate <;> simp
    cases o.vendorFindByIdAndUpdate <;> simp

theorem verify_retime (cfg : Config) (o : VerifyOracle) (f : String → PendingRecord → Int)
    (p : PendingMap) (body : JsVal) :
    (verifyVendorPayment cfg o (p.retime f) body).response =
        (verifyVendorPayment cfg o p body).response ∧
      (verifyVendorPayment cfg o (p.retime f) body).effects =
        (verifyVendorPayment cfg o p body).effects := by
  unfold verifyVendorPayment
  cases hb : readVerifyBody body with
  | error e => simp
  | ok b =>
    simp only []
    cases hs : signatureDiffers cfg b with
    | true => simp
    | false =>
      simp only [Bool.false_eq_true, if_false]
      rw [getVal_retime]
      cases hget : p.getVal b.razorpay_order_id with
      | none => simp
      | some d =>
        simp only [Option.map_some']
        cases o.vendorFindById with
        | error e => simp
        | ok ov =>
          cases ov with
          | none => simp
          | some vendor =>
            simp only []
            cases o.userFindOne with
            | error e => simp
            | ok ou =>
              cases ou with
              | some u => exact verifyFinish_retime o p (p.retime f) b d _ _ _ _
              | none =>
                simp only []
                cases o.userSave with
                | error e => simp
                | ok saved => exact verifyFinish_retime o p (p.retime f) b d _ _ _ _

/-! ### The items of the order -/

theorem mapItem_ok (item mapped : JsVal) (h : mapItem item = .ok mapped) :
    itemMapped item mapped := by
  unfold mapItem at h
  cases h1 : item.getProp "itemId" with
  | error e => rw [h1] at h; cases h
  | ok i =>
    cases h2 : item.getProp "kind" with
    | error e => rw [h1, h2] at h; cases h
    | ok k =>
      cases h3 : item.getProp "quantity" with
      | error e => rw [h1, h2, h3] at h; cases h
      | ok q =>
        rw [h1, h2, h3] at h
        refine ⟨i, k, q, h1, h2, h3, ?_⟩
        cases h
        rfl

theorem mapItemList_ok (xs ys : List JsVal) (h : mapItemList xs = .ok ys) :
    List.Forall₂ itemMapped xs ys := by
  induction xs generalizing ys with
  | nil =>
    simp only [mapItemList] at h
    cases h
    exact List.Forall₂.nil
  | cons x xs ih =>
    simp only [mapItemList] at h
    cases h1 : mapItem x with
    | error e => rw [h1] at h; cases h
    | ok y =>
      rw [h1] at h
      simp only [] at h
      cases h2 : mapItemList xs with
      | error e => rw [h2] at h; cases h
      | ok rest =>
        rw [h2] at h
        cases h
        exact List.Forall₂.cons (mapItem_ok x y h1) (ih rest h2)

theorem getProp_defined (item : JsVal) (name : String) (h1 : item ≠ .undefined)
    (h2 : item ≠ .null) : ∃ v, item.getProp name = .ok v := by
  cases item <;> simp [JsVal.getProp] at h1 h2 ⊢

theorem mapItem_defined (item : JsVal) (h1 : item ≠ .undefined) (h2 : item ≠ .null) :
    ∃ mapped, mapItem item = .ok mapped := by
  obtain ⟨i, hi⟩ := getProp_defined item "itemId" h1 h2
  obtain ⟨k, hk⟩ := getProp_defined item "kind" h1 h2
  obtain ⟨q, hq⟩ := getProp_defined item "quantity" h1 h2
  refine ⟨.obj [("itemId", i), ("kind", k), ("quantity", q)], ?_⟩
  unfold mapItem
  rw [hi, hk, hq]
  rfl

theorem mapItemList_defined (xs : List JsVal)
    (h : ∀ x ∈ xs, x ≠ .undefined ∧ x ≠ .null) : ∃ ys, mapItemList xs = .ok ys := by
  induction xs with
  | nil => exact ⟨[], rfl⟩
  | cons x xs ih =>
    obtain ⟨y, hy⟩ := mapItem_defined x (h x (List.mem_cons_self _ _)).1
      (h x (List.mem_cons_self _ _)).2
    obtain ⟨ys, hys⟩ := ih (fun z hz => h z (List.mem_cons_of_mem _ hz))
    refine ⟨y :: ys, ?_⟩
    simp only [mapItemList, hy, hys]

theorem verifyFinish_all_return (o : VerifyOracle) (p : PendingMap) (b : VerifyBody)
    (d : PendingRecord) (userId : JsVal) (existing : Bool) (done : List Effect)
    (items : List JsVal) (ho : o.allReturn) (hitems : mapItems d.items = .ok items) :
    (verifyFinish o p b d userId existing done).response.status = 200 := by
  obtain ⟨_, _, _, ⟨pd, h1⟩, ⟨num, h2⟩, ⟨newOrder, h4⟩, h5, h6⟩ := ho
  unfold verifyFinish
  simp only [h1, h2, hitems, h4, h5, h6]
  cases existing <;> simp

theorem verify_all_return (cfg : Config) (o : VerifyOracle) (p : PendingMap) (body : JsVal)
    (b : VerifyBody) (d : PendingRecord) (items : List JsVal)
    (hb : readVerifyBody body = .ok b) (hs : signatureDiffers cfg b = false)
    (hget : p.getVal b.razorpay_order_id = some d) (ho : o.allReturn)
    (hitems : mapItems d.items = .ok items) :
    (verifyVendorPayment cfg o p body).response.status = 200 := by
  have ho2 := ho
  obtain ⟨⟨vendor, hv⟩, ⟨found, hu⟩, ⟨saved, hsave⟩, _⟩ := ho2
  unfold verifyVendorPayment
  simp only [hb, hs, hget, hv, hu, Bool.false_eq_true, if_false]
  cases found with
  | some u => exact verifyFinish_all_return o p b d _ _ _ items ho hitems
  | none =>
    simp only [hsave]
    exact verifyFinish_all_return o p b d _ _ _ items ho hitems

theorem finishCalls_orderCreate (b : VerifyBody) (d : PendingRecord) (userId : JsVal)
    (existing : Bool) (pd : PaymentDoc) (num : JsVal) (items : List JsVal) (newOrder : OrderDoc)
    (done : List Effect) :
    ∃ doc, Effect.orderCreate doc ∈ done ++ finishCalls b d userId existing pd num items newOrder :=
  ⟨⟨num, userId, d.orderType, "upi", d.collectorName, d.collectorPhone, items, d.total,
    "inProgress", d.vendorId, true, pd._id⟩, by simp [finishCalls]⟩

theorem verify_success_orderCreate (cfg : Config) (o : VerifyOracle) (p : PendingMap)
    (body : JsVal) (h : (verifyVendorPayment cfg o p body).response.status = 200) :
    ∃ doc, Effect.orderCreate doc ∈ (verifyVendorPayment cfg o p body).effects := by
  obtain ⟨b, d, vendor, _, _, _, _, hcase⟩ := verify_success cfg o p body h
  rcases hcase with ⟨u, _, heq⟩ | ⟨_, saved, _, heq⟩
  · rw [heq] at h ⊢
    obtain ⟨pd, num, items, newOrder, _, _, _, _, _, heff⟩ :=
      verifyFinish_success o p b d _ _ _ h
    rw [heff]
    exact finishCalls_orderCreate _ _ _ _ _ _ _ _ _
  · rw [heq] at h ⊢
    obtain ⟨pd, num, items, newOrder, _, _, _, _, _, heff⟩ :=
      verifyFinish_success o p b d _ _ _ h
    rw [heff]
    exact finishCalls_orderCreate _ _ _ _ _ _ _ _ _

/-- The record of a successful `createVendorRazorpayOrder` is in the map afterwards
when its timestamp is not older than 30 minutes at the sweep. -/
theorem create_stored (cfg : Config) (o : CreateOracle) (p : PendingMap) (body : JsVal)
    (b : CreateBody) (order : GatewayOrder) (hp : p.WF)
    (h200 : (createVendorRazorpayOrder cfg o p body).response.status = 200)
    (hb : readCreateBody body = .ok b) (hg : o.ordersCreate = .ok order)
    (hclock : o.nowSweep - 30 * 60 * 1000 ≤ o.nowStored) :
    (createVendorRazorpayOrder cfg o p body).pending.get order.id =
      some ⟨b.vendorId, b.items, b.total, b.collectorName, b.collectorPhone, b.orderType,
        o.nowStored⟩ := by
  obtain ⟨b2, v, tail, order2, hb2, _, _, _, _, _, _, _, hg2, hpend, _⟩ :=
    create_success cfg o p body h200
  have hbeq : b2 = b := by
    rw [hb2] at hb
    cases hb
    rfl
  have hoeq : order2 = order := by
    rw [hg2] at hg
    cases hg
    rfl
  subst hbeq hoeq
  rw [hpend, PendingMap.get_sweep _ (PendingMap.WF_set p hp _ _), PendingMap.get_set,
    if_pos rfl]
  simp only [Option.filter]
  rw [if_pos (by simpa using hclock)]

/-! ### The lock store -/

namespace LockStore

theorem lookup_absent (s : LockStore) (key : LockKey) (h : key ∉ s.map Prod.fst) :
    s.lookup key = none := by
  rw [List.lookup_eq_none_iff]
  intro e he
  have hne : key ≠ e.1 := fun hk => h (List.mem_map.mpr ⟨e, he, hk.symm⟩)
  simpa using hne

theorem not_mem_keys_erased (s : LockStore) (key : LockKey) :
    key ∉ (s.filter (fun e => decide (e.1 ≠ key))).map Prod.fst := by
  intro h
  obtain ⟨e, he, hk⟩ := List.mem_map.mp h
  have h2 := (List.mem_filter.mp he).2
  simp only [ne_eq, decide_not, Bool.not_eq_true', decide_eq_false_iff_not] at h2
  exact h2 hk

theorem lookup_put (s : LockStore) (key : LockKey) (lock : Lock) :
    List.lookup key (s.filter (fun e => decide (e.1 ≠ key)) ++ [(key, lock)]) = some lock := by
  have h := lookup_absent _ key (not_mem_keys_erased s key)
  generalize s.filter (fun e => decide (e.1 ≠ key)) = t at h
  induction t with
  | nil => simp [List.lookup]
  | cons e t ih =>
    obtain ⟨a, l⟩ := e
    by_cases hk : key = a
    · subst hk
      simp [List.lookup] at h
    · have hb : (key == a) = false := by simpa using hk
      simp only [List.cons_append, List.lookup, hb] at h ⊢
      exact ih h

theorem WF_erased (s : LockStore) (hs : s.WF) (key : LockKey) :
    WF (s.filter (fun e => decide (e.1 ≠ key))) := by
  unfold WF at *
  exact hs.sublist ((List.filter_sublist s).map Prod.fst)

theorem WF_put (s : LockStore) (hs : s.WF) (key : LockKey) (lock : Lock) :
    WF (s.filter (fun e => decide (e.1 ≠ key)) ++ [(key, lock)]) := by
  have h1 := WF_erased s hs key
  have h2 := not_mem_keys_erased s key
  unfold WF at *
  rw [List.map_append]
  apply List.Nodup.append h1 (by simp)
  intro a ha hb
  have hak : a = key := by simpa using hb
  subst hak
  exact h2 ha

theorem WF_tryPut (s s1 : LockStore) (hs : s.WF) (now : Nat) (key : LockKey) (lock : Lock)
    (h : s.tryPut now key lock = .ok s1) : s1.WF := by
  unfold tryPut at h
  cases hg : s.get key now with
  | some l => rw [hg] at h; cases h
  | none =>
    rw [hg] at h
    cases h
    exact WF_put s hs key lock

theorem WF_remove (s s1 : LockStore) (hs : s.WF) (key : LockKey) (holderId : String)
    (h : s.remove key holderId = some s1) : s1.WF := by
  unfold remove at h
  cases hl : s.lookup key with
  | none => rw [hl] at h; cases h
  | some l =>
    rw [hl] at h
    simp only [] at h
    by_cases hh : l.holderId = holderId
    · rw [if_pos hh] at h
      cases h
      exact WF_erased s hs key
    · rw [if_neg hh] at h
      cases h

/-- In a store without duplicate keys at most one entry, so at most one holder,
has a live lock on a key. -/
theorem liveHolders_length (s : LockStore) (hs : s.WF) (key : LockKey) (now : Nat) :
    (s.liveHolders key now).length ≤ 1 := by
  unfold liveHolders
  rw [List.length_map]
  induction s with
  | nil => simp
  | cons e s ih =>
    have hs2 : WF s := (List.nodup_cons.mp hs).2
    have hnot : e.1 ∉ s.map Prod.fst := (List.nodup_cons.mp hs).1
    by_cases hk : e.1 = key
    · have hnil : s.filter (fun e => decide (e.1 = key) && e.2.live now) = [] := by
        rw [List.filter_eq_nil_iff]
        intro x hx hcond
        simp only [Bool.and_eq_true, decide_eq_true_eq] at hcond
        exact hnot (List.mem_map.mpr ⟨x, hx, hcond.1.trans hk.symm⟩)
      by_cases hl : e.2.live now = true
      · rw [List.filter_cons_of_pos (by simp [hk, hl]), hnil]
        simp
      · rw [List.filter_cons_of_neg (by simp [hl]), hnil]
        simp
    · rw [List.filter_cons_of_neg (by simp [hk])]
      exact ih hs2

end LockStore

theorem WF_rollbackLocks (holderId : String) (keys : List LockKey) (s : LockStore)
    (hs : s.WF) : (rollbackLocks s holderId keys).WF := by
  induction keys generalizing s with
  | nil => exact hs
  | cons key rest ih =>
    simp only [rollbackLocks]
    apply ih
    cases hr : s.remove key holderId with
    | none => exact hs
    | some s1 => exact LockStore.WF_remove s s1 hs key holderId hr

theorem WF_acquireLoop (ttl now : Nat) (holderId vendorId : String)
    (items : List (String × Nat)) (acquired : List LockKey) (s : LockStore) (hs : s.WF) :
    (acquireLoop ttl now holderId vendorId items acquired s).2.WF := by
  induction items generalizing acquired s with
  | nil => exact hs
  | cons item rest ih =>
    obtain ⟨itemId, quantity⟩ := item
    simp only [acquireLoop]
    cases ht : s.tryPut now (vendorId, itemId) ⟨itemId, holderId, now, now + ttl, quantity⟩ with
    | error c => exact WF_rollbackLocks holderId acquired s hs
    | ok s1 => exact ih _ s1 (LockStore.WF_tryPut s s1 hs now _ _ ht)

theorem WF_acquireLocks (ttl : Nat) (s : LockStore) (hs : s.WF) (now : Nat)
    (holderId vendorId : String) (itemSpecs : List (String × Nat)) :
    (acquireLocks ttl s now holderId vendorId itemSpecs).2.WF :=
  WF_acquireLoop ttl now holderId vendorId _ [] s hs

theorem WF_runAttempts (ttl : Nat) (vendorId itemId : String) (attempts : List Attempt)
    (s : LockStore) (hs : s.WF) : (runAttempts ttl vendorId itemId s attempts).2.WF := by
  induction attempts generalizing s with
  | nil => exact hs
  | cons a rest ih =>
    simp only [runAttempts]
    exact ih _ (WF_acquireLocks ttl s hs a.time a.holderId vendorId _)

/-- A single-item acquisition on a key without live lock succeeds and puts the
lock of the caller. -/
theorem acquire_free (ttl : Nat) (s : LockStore) (now : Nat) (holderId vendorId itemId : String)
    (quantity : Nat) (hfree : s.get (vendorId, itemId) now = none) :
    acquireLocks ttl s now holderId vendorId [(itemId, quantity)] =
      (.ok, s.filter (fun e => decide (e.1 ≠ (vendorId, itemId))) ++
        [((vendorId, itemId), ⟨itemId, holderId, now, now + ttl, quantity⟩)]) := by
  simp [acquireLocks, acquireLoop, LockStore.tryPut, hfree]

/-- A single-item acquisition on a key with a live lock observes `ItemLocked` and
leaves the store as it was. -/
theorem acquire_held (ttl : Nat) (s : LockStore) (now : Nat) (holderId vendorId itemId : String)
    (quantity : Nat) (l : Lock) (hheld : s.get (vendorId, itemId) now = some l) :
    acquireLocks ttl s now holderId vendorId [(itemId, quantity)] = (.itemLocked itemId, s) := by
  simp [acquireLocks, acquireLoop, LockStore.tryPut, hheld, rollbackLocks]

/-- While a lock that outlives the window is held, every attempt of the window
observes `ItemLocked`. -/
theorem runAttempts_held (ttl t0 : Nat) (vendorId itemId : String) (attempts : List Attempt)
    (s : LockStore) (l : Lock) (hl : s.lookup (vendorId, itemId) = some l)
    (hlive : t0 + ttl ≤ l.expiresAt) (hwin : ∀ a ∈ attempts, a.time ≤ t0 + ttl) :
    runAttempts ttl vendorId itemId s attempts =
      (attempts.map (fun _ => .itemLocked itemId), s) := by
  induction attempts with
  | nil => rfl
  | cons a rest ih =>
    have hget : s.get (vendorId, itemId) a.time = some l := by
      unfold LockStore.get
      rw [hl]
      have h1 := hwin a (List.mem_cons_self _ _)
      have : l.live a.time = true := by
        simp only [Lock.live, Bool.not_eq_true', decide_eq_false_iff_not, not_lt]
        omega
      simp [Option.filter, this]
    simp only [runAttempts]
    rw [acquire_held ttl s a.time a.holderId vendorId itemId a.quantity l hget]
    simp only []
    rw [ih (fun x hx => hwin x (List.mem_cons_of_mem _ hx))]
    rfl

/-- C1, as stated, fails: when `getLockStatistics()` returns `null`, the body
sent by `GET /locks/stats` has no `timestamp` field. -/
theorem lock_stats_body_has_no_timestamp :
    LockRoute.coreCall quietCore .stats = .ok .null ∧
      ((LockRoute.handle quietCore 0 .stats).body.field "timestamp").isSome = false := by
  exact ⟨rfl, rfl⟩

/-- C1, amended: whenever the mapped core operation of a lock route returns `r`,
the handler answers with status 200 and a body with `success = true`, `data = r`
and `requestedBy = "anonymous"`; the body has a `timestamp` (the value of
`new Date()`) on the routes release, cleanup, clear-all and items, and none on
stats and detailed-stats. -/
theorem lock_route_success_body (core : LockCore) (now : Int) (route : LockRoute) (r : JsVal)
    (h : route.coreCall core = .ok r) :
    (route.handle core now).status = 200 ∧
      (route.handle core now).body.field "success" = some (.bool true) ∧
      (route.handle core now).body.field "data" = some r ∧
      (route.handle core now).body.field "requestedBy" = some (.str "anonymous") ∧
      (route.handle core now).body.field "timestamp" =
        (if route.stamped then some (.date now) else none) := by
  cases route <;>
    simp only [LockRoute.coreCall] at h <;>
    simp [LockRoute.handle, LockRoute.stamped, getLocksStats, getLocksDetailedStats,
      postLocksRelease, postLocksCleanup, postLocksClearAll, getLocksItems, h, JsVal.field,
      List.lookup]

/-- Witness of `lock_route_success_body` on `POST /locks/cleanup`. -/
theorem lock_route_success_body_witness :
    (LockRoute.handle quietCore 7 .cleanup).status = 200 ∧
      (LockRoute.handle quietCore 7 .cleanup).body.field "success" = some (.bool true) ∧
      (LockRoute.handle quietCore 7 .cleanup).body.field "data" = some .null ∧
      (LockRoute.handle quietCore 7 .cleanup).body.field "requestedBy"
        = some (.str "anonymous") ∧
      (LockRoute.handle quietCore 7 .cleanup).body.field "timestamp" =
        (if LockRoute.stamped .cleanup then some (.date 7) else none) :=
  lock_route_success_body quietCore 7 .cleanup .null rfl

/-- C2: a lock route answers with status 500 exactly when its mapped core
operation throws, and then the body has `success = false`, `error` equal to the
message of the thrown error, and no `data`. -/
theorem lock_route_500_iff_core_throws (core : LockCore) (now : Int) (route : LockRoute) :
    ((route.handle core now).status = 500 ↔ ∃ e, route.coreCall core = .error e) ∧
      ∀ e, route.coreCall core = .error e →
        (route.handle core now).status = 500 ∧
        (route.handle core now).body.field "success" = some (.bool false) ∧
        (route.handle core now).body.field "error" = some (.str e.message) ∧
        (route.handle core now).body.field "data" = none := by
  cases route <;>
    simp only [LockRoute.coreCall, LockRoute.handle, getLocksStats, getLocksDetailedStats,
      postLocksRelease, postLocksCleanup, postLocksClearAll, getLocksItems] <;>
    split <;> simp_all [adminFailure, JsVal.field, List.lookup]

/-- Witness of `lock_route_500_iff_core_throws` on `POST /locks/release/:orderId`
with a core that throws. -/
theorem lock_route_500_iff_core_throws_witness :
    (LockRoute.handle brokenCore 0 (.release "o1")).status = 500 ∧
      (LockRoute.handle brokenCore 0 (.release "o1")).body.field "error"
        = some (.str "boom") :=
  have h := (lock_route_500_iff_core_throws brokenCore 0 (.release "o1")).2 ⟨"boom"⟩ rfl
  ⟨h.1, h.2.2.1⟩

/-! ## `createVendorRazorpayOrder` -/

/-- C4: after a successful `createVendorRazorpayOrder` whose sweep reads the clock
at `o.nowSweep`, no entry of the map is older than 30 minutes, every entry that was
there before and is not older than 30 minutes (other than one overwritten under
the new order id) is still there unchanged, so is the newly stored entry, and
nothing else has appeared: the sweep removes exactly the entries older than 30
minutes.  The map has no duplicate key, and the timestamp stored in this call is
not itself older than 30 minutes at the sweep (both are read in the same
synchronous block). -/
theorem sweep_removes_exactly_old (cfg : Config) (o : CreateOracle) (p : PendingMap)
    (body : JsVal) (hp : p.WF)
    (h200 : (createVendorRazorpayOrder cfg o p body).response.status = 200)
    (hclock : o.nowSweep - 30 * 60 * 1000 ≤ o.nowStored) :
    ∃ b order, readCreateBody body = .ok b ∧ o.ordersCreate = .ok order ∧
      (∀ e ∈ (createVendorRazorpayOrder cfg o p body).pending,
        ¬ e.2.timestamp < o.nowSweep - 30 * 60 * 1000) ∧
      (∀ k v, k ≠ order.id → p.get k = some v → o.nowSweep - 30 * 60 * 1000 ≤ v.timestamp →
        (createVendorRazorpayOrder cfg o p body).pending.get k = some v) ∧
      (createVendorRazorpayOrder cfg o p body).pending.get order.id =
        some ⟨b.vendorId, b.items, b.total, b.collectorName, b.collectorPhone, b.orderType,
          o.nowStored⟩ ∧
      (∀ k v, k ≠ order.id → (createVendorRazorpayOrder cfg o p body).pending.get k = some v →
        p.get k = some v) := by
  obtain ⟨b, v, tail, order, hb, _, _, _, _, _, _, _, hg, hpend, _⟩ :=
    create_success cfg o p body h200
  have hwf := PendingMap.WF_set p hp order.id
    ⟨b.vendorId, b.items, b.total, b.collectorName, b.collectorPhone, b.orderType, o.nowStored⟩
  refine ⟨b, order, hb, hg, ?_, ?_, ?_, ?_⟩
  · intro e he
    rw [hpend] at he
    exact PendingMap.mem_sweep _ hwf _ e he
  · intro k r hk hget hts
    rw [hpend, PendingMap.get_sweep _ hwf, PendingMap.get_set, if_neg hk, hget]
    simp only [Option.filter]
    rw [if_pos (by simpa using hts)]
  · rw [hpend, PendingMap.get_sweep _ hwf, PendingMap.get_set, if_pos rfl]
    simp only [Option.filter]
    rw [if_pos (by simpa using hclock)]
  · intro k r hk hget
    rw [hpend] at hget
    have h2 := PendingMap.get_sweep_some _ _ _ _ hget
    rwa [PendingMap.get_set, if_neg hk] at h2

/-- Witness of `sweep_removes_exactly_old`: the demo request at time 2000000 on a
map that holds one record stored at time 0. -/
theorem sweep_removes_exactly_old_witness :
    PendingMap.WF [("order_0", demoRecord 0)] ∧
      demoCreateOracle.nowSweep - 30 * 60 * 1000 ≤ demoCreateOracle.nowStored ∧
      ∃ b order, readCreateBody demoCreateBody = .ok b ∧
        demoCreateOracle.ordersCreate = .ok order ∧
        (∀ e ∈ (createVendorRazorpayOrder demoConfig demoCreateOracle
            [("order_0", demoRecord 0)] demoCreateBody).pending,
          ¬ e.2.timestamp < demoCreateOracle.nowSweep - 30 * 60 * 1000) ∧
        (∀ k v, k ≠ order.id → PendingMap.get [("order_0", demoRecord 0)] k = some v →
          demoCreateOracle.nowSweep - 30 * 60 * 1000 ≤ v.timestamp →
          (createVendorRazorpayOrder demoConfig demoCreateOracle
            [("order_0", demoRecord 0)] demoCreateBody).pending.get k = some v) ∧
        (createVendorRazorpayOrder demoConfig demoCreateOracle
            [("order_0", demoRecord 0)] demoCreateBody).pending.get order.id =
          some ⟨b.vendorId, b.items, b.total, b.collectorName, b.collectorPhone, b.orderType,
            demoCreateOracle.nowStored⟩ ∧
        (∀ k v, k ≠ order.id →
          (createVendorRazorpayOrder demoConfig demoCreateOracle
            [("order_0", demoRecord 0)] demoCreateBody).pending.get k = some v →
          PendingMap.get [("order_0", demoRecord 0)] k = some v) :=
  ⟨by simp [PendingMap.WF], by decide,
    sweep_removes_exactly_old demoConfig demoCreateOracle [("order_0", demoRecord 0)]
      demoCreateBody (by simp [PendingMap.WF]) (demo_create_status _) (by decide)⟩

/-- The guard `amountInPaise <= 0` lets `NaN` through: on a body whose `total` is
an object, the gateway is called with the amount `NaN`. -/
theorem create_calls_gateway_with_nan :
    amountInPaise demoConfig (.obj []) = .nan ∧
      (createVendorRazorpayOrder demoConfig demoCreateOracle [] objectTotalBody).response.status
        = 200 ∧
      ((createVendorRazorpayOrder demoConfig demoCreateOracle [] objectTotalBody).effects.map
        (fun e => match e with
          | .razorpayOrdersCreate args =>
            (match args.amount with
              | .nan => true
              | .fin _ => false)
          | _ => false)) = [false, true] := by
  exact ⟨rfl, rfl, rfl⟩

/-- C3, as stated, fails: one stored record yields two orders when the first
`verifyVendorPayment` fails after `Order.create` has returned (here
`Vendor.findByIdAndUpdate` throws, the answer is 500 and the record stays stored)
and the request is then repeated. -/
theorem verify_retry_creates_second_order :
    (verifyVendorPayment demoConfig vendorUpdateFails [("order_1", demoRecord 0)]
        demoVerifyBody).response.status = 500 ∧
      ordersCreated vendorUpdateFails
        (verifyVendorPayment demoConfig vendorUpdateFails [("order_1", demoRecord 0)]
          demoVerifyBody) = 1 ∧
      (verifyVendorPayment demoConfig demoVerifyOracle
        (verifyVendorPayment demoConfig vendorUpdateFails [("order_1", demoRecord 0)]
          demoVerifyBody).pending demoVerifyBody).response.status = 200 ∧
      ordersCreated demoVerifyOracle
        (verifyVendorPayment demoConfig demoVerifyOracle
          (verifyVendorPayment demoConfig vendorUpdateFails [("order_1", demoRecord 0)]
            demoVerifyBody).pending demoVerifyBody) = 1 := by
  exact ⟨rfl, rfl, rfl, rfl⟩

/-- C3, amended: after `verifyVendorPayment` answers 200 for the order id `k`, the
map has no entry for `k` and that run has created exactly one order; after any
later sequence of requests none of which stores `k` again, every
`verifyVendorPayment` for `k` with a valid signature answers 400 "Order details
not found...", makes no call (so creates no payment and no order) and leaves the
map unchanged.  So at most one request is answered 200 per stored record; a run
that fails after `Order.create` is not covered. -/
theorem pending_record_consumed_once (cfg : Config) (o : VerifyOracle) (p : PendingMap)
    (body : JsVal) (b : VerifyBody) (k : String)
    (hb : readVerifyBody body = .ok b) (hk : b.razorpay_order_id = .str k)
    (h200 : (verifyVendorPayment cfg o p body).response.status = 200) :
    (verifyVendorPayment cfg o p body).pending.get k = none ∧
      ordersCreated o (verifyVendorPayment cfg o p body) = 1 ∧
      ∀ (later : List Call),
        neverStores cfg k (verifyVendorPayment cfg o p body).pending later →
        ∀ (o2 : VerifyOracle) (body2 : JsVal) (b2 : VerifyBody),
          readVerifyBody body2 = .ok b2 → b2.razorpay_order_id = .str k →
          signatureDiffers cfg b2 = false →
          verifyVendorPayment cfg o2
              (runCalls cfg (verifyVendorPayment cfg o p body).pending later) body2 =
            ⟨⟨400, failureBody
              "Order details not found. Payment may have expired or order was already processed."⟩,
              runCalls cfg (verifyVendorPayment cfg o p body).pending later, []⟩ := by
  have hgone : (verifyVendorPayment cfg o p body).pending.get k = none := by
    rw [verify_pending, if_pos h200, hb]
    simp only [hk, PendingMap.deleteVal]
    exact PendingMap.get_delete_self p k
  refine ⟨hgone, verify_ordersCreated cfg o p body h200, ?_⟩
  intro later hns o2 body2 b2 hb2 hk2 hs2
  apply verify_not_found cfg o2 _ body2 b2 hb2 hs2
  rw [hk2]
  exact runCalls_keeps_absent cfg k later _ hgone hns

/-- Witness of `pending_record_consumed_once`: the demo verification on a map that
holds the record of "order_1". -/
theorem pending_record_consumed_once_witness :
    (verifyVendorPayment demoConfig demoVerifyOracle [("order_1", demoRecord 0)]
        demoVerifyBody).response.status = 200 ∧
      (verifyVendorPayment demoConfig demoVerifyOracle [("order_1", demoRecord 0)]
        demoVerifyBody).pending.get "order_1" = none ∧
      ordersCreated demoVerifyOracle
        (verifyVendorPayment demoConfig demoVerifyOracle [("order_1", demoRecord 0)]
          demoVerifyBody) = 1 :=
  have h := pending_record_consumed_once demoConfig demoVerifyOracle
    [("order_1", demoRecord 0)] demoVerifyBody demoVerifyFields "order_1" rfl rfl rfl
  ⟨rfl, h.1, h.2.1⟩

/-- C9, as stated, fails: `verifyVendorPayment` does not read the timestamp.  A
record stored at time 0 and verified when the clock reads 5000000 ms, more than
30 minutes later, is consumed: the answer is 200 and a payment and an order are
created. -/
theorem verify_consumes_expired_record :
    (demoRecord 0).timestamp < demoVerifyOracle.nowEmail - 30 * 60 * 1000 ∧
      (verifyVendorPayment demoConfig demoVerifyOracle [("order_1", demoRecord 0)]
        demoVerifyBody).response.status = 200 ∧
      paymentsCreated demoVerifyOracle
        (verifyVendorPayment demoConfig demoVerifyOracle [("order_1", demoRecord 0)]
          demoVerifyBody) = 1 ∧
      ordersCreated demoVerifyOracle
        (verifyVendorPayment demoConfig demoVerifyOracle [("order_1", demoRecord 0)]
          demoVerifyBody) = 1 := by
  exact ⟨by decide, rfl, rfl, rfl⟩

/-- C9, amended: the 30-minute window is enforced by the sweep of
`createVendorRazorpayOrder` only.  Once a successful `createVendorRazorpayOrder`
has swept a record older than 30 minutes, `verifyVendorPayment` for its order id
with a valid signature answers 400 "Order details not found...", makes no call and
leaves the map unchanged; and the response and the calls of `verifyVendorPayment`
never depend on the timestamps in the map. -/
theorem retention_enforced_by_sweep_only (cfg : Config) (oc : CreateOracle) (p : PendingMap)
    (cbody : JsVal) (order : GatewayOrder) (k : String) (d : PendingRecord) (hp : p.WF)
    (h200 : (createVendorRazorpayOrder cfg oc p cbody).response.status = 200)
    (hg : oc.ordersCreate = .ok order) (hk : k ≠ order.id) (hget : p.get k = some d)
    (hold : d.timestamp < oc.nowSweep - 30 * 60 * 1000) :
    (∀ (ov : VerifyOracle) (vbody : JsVal) (vb : VerifyBody),
      readVerifyBody vbody = .ok vb → vb.razorpay_order_id = .str k →
      signatureDiffers cfg vb = false →
      verifyVendorPayment cfg ov (createVendorRazorpayOrder cfg oc p cbody).pending vbody =
        ⟨⟨400, failureBody
          "Order details not found. Payment may have expired or order was already processed."⟩,
          (createVendorRazorpayOrder cfg oc p cbody).pending, []⟩) ∧
    (∀ (f : String → PendingRecord → Int) (q : PendingMap) (ov : VerifyOracle) (vbody : JsVal),
      (verifyVendorPayment cfg ov (q.retime f) vbody).response =
          (verifyVendorPayment cfg ov q vbody).response ∧
        (verifyVendorPayment cfg ov (q.retime f) vbody).effects =
          (verifyVendorPayment cfg ov q vbody).effects) := by
  refine ⟨?_, fun f q ov vbody => verify_retime cfg ov f q vbody⟩
  intro ov vbody vb hvb hid hs
  apply verify_not_found cfg ov _ vbody vb hvb hs
  obtain ⟨b, v, tail, order2, _, _, _, _, _, _, _, _, hg2, hpend, _⟩ :=
    create_success cfg oc p cbody h200
  have heq : order2 = order := by
    rw [hg2] at hg
    cases hg
    rfl
  subst heq
  rw [hid]
  show (createVendorRazorpayOrder cfg oc p cbody).pending.get k = none
  rw [hpend, PendingMap.get_sweep _ (PendingMap.WF_set p hp _ _), PendingMap.get_set,
    if_neg hk, hget]
  simp only [Option.filter]
  rw [if_neg (by simp only [Bool.not_eq_true', decide_eq_false_iff_not, not_not]; exact hold)]

/-- Witness of `retention_enforced_by_sweep_only`: the demo request at time
2000000 sweeps the record stored at time 0 under "order_0", and a verification for
"order_0" is then answered 400. -/
theorem retention_enforced_by_sweep_only_witness :
    PendingMap.WF [("order_0", demoRecord 0)] ∧
      (demoRecord 0).timestamp < demoCreateOracle.nowSweep - 30 * 60 * 1000 ∧
      (verifyVendorPayment demoConfig demoVerifyOracle
        (createVendorRazorpayOrder demoConfig demoCreateOracle [("order_0", demoRecord 0)]
          demoCreateBody).pending
        (.obj [("razorpay_order_id", .str "order_0"), ("razorpay_payment_id", .str "pay_1"),
          ("razorpay_signature", .str "secret:order_0|pay_1")])).response.status = 400 :=
  ⟨by simp [PendingMap.WF], by decide,
    congrArg (fun out => out.response.status)
      ((retention_enforced_by_sweep_only demoConfig demoCreateOracle
        [("order_0", demoRecord 0)] demoCreateBody demoGatewayOrder "order_0" (demoRecord 0)
        (by simp [PendingMap.WF]) (demo_create_status _) rfl (by decide) rfl (by decide)).1
        demoVerifyOracle
        (.obj [("razorpay_order_id", .str "order_0"), ("razorpay_payment_id", .str "pay_1"),
          ("razorpay_signature", .str "secret:order_0|pay_1")])
        ⟨.str "order_0", .str "pay_1", .str "secret:order_0|pay_1"⟩ rfl rfl (by decide))⟩

/-- C10: on every run of `verifyVendorPayment` that answers 200, `isNewUser` is
true exactly when `User.findOne` found no user.  When it found one, no user is
saved, payment and order carry that user's id and the order id is pushed to the
user and to the vendor; when it found none, one guest user is saved with the
collector's name and phone and the vendor's `uniID`, payment and order carry the
saved user's id and the order id is pushed to the vendor only. -/
theorem verify_user_handling (cfg : Config) (o : VerifyOracle) (p : PendingMap)
    (body : JsVal) (h200 : (verifyVendorPayment cfg o p body).response.status = 200) :
    ∃ b d vendor paymentDoc orderNumber items newOrder,
      readVerifyBody body = .ok b ∧ p.getVal b.razorpay_order_id = some d ∧
      o.vendorFindById = .ok (some vendor) ∧ o.paymentCreate = .ok paymentDoc ∧
      o.generateOrderNumber = .ok orderNumber ∧ mapItems d.items = .ok items ∧
      o.orderCreate = .ok newOrder ∧
      ((verifyVendorPayment cfg o p body).response.body.field "isNewUser" = some (.bool true)
        ↔ o.userFindOne = .ok none) ∧
      (∀ u, o.userFindOne = .ok (some u) →
        (verifyVendorPayment cfg o p body).response.body.field "isNewUser"
          = some (.bool false) ∧
        (verifyVendorPayment cfg o p body).effects =
          [.vendorFindById d.vendorId, .userFindOne d.collectorPhone,
            .paymentCreate ⟨u._id, d.total, "paid", "razorpay", b.razorpay_order_id,
              b.razorpay_payment_id⟩,
            .generateOrderNumber u._id d.vendorId,
            .orderCreate ⟨orderNumber, u._id, d.orderType, "upi", d.collectorName,
              d.collectorPhone, items, d.total, "inProgress", d.vendorId, true,
              paymentDoc._id⟩,
            .userPushActiveOrder u._id newOrder._id,
            .vendorPushActiveOrder d.vendorId newOrder._id]) ∧
      (o.userFindOne = .ok none →
        ∃ saved, o.userSave = .ok saved ∧
          (verifyVendorPayment cfg o p body).effects =
            [.vendorFindById d.vendorId, .userFindOne d.collectorPhone,
              .userSave ⟨d.collectorName, d.collectorPhone,
                "guest_" ++ toString o.nowEmail ++ "@kiitbites.com", "guest_password",
                "user-standard", true, vendor.uniID⟩,
              .paymentCreate ⟨saved._id, d.total, "paid", "razorpay", b.razorpay_order_id,
                b.razorpay_payment_id⟩,
              .generateOrderNumber saved._id d.vendorId,
              .orderCreate ⟨orderNumber, saved._id, d.orderType, "upi", d.collectorName,
                d.collectorPhone, items, d.total, "inProgress", d.vendorId, true,
                paymentDoc._id⟩,
              .vendorPushActiveOrder d.vendorId newOrder._id]) := by
  obtain ⟨b, d, vendor, hb, _, hget, hv, hcase⟩ := verify_success cfg o p body h200
  rcases hcase with ⟨u, hu, heq⟩ | ⟨hu, saved, hsave, heq⟩
  · rw [heq] at h200
    obtain ⟨pd, num, items, newOrder, h1, h2, h3, h4, hbody, heff⟩ :=
      verifyFinish_success o p b d _ _ _ h200
    refine ⟨b, d, vendor, pd, num, items, newOrder, hb, hget, hv, h1, h2, h3, h4, ?_, ?_, ?_⟩
    · rw [heq, hbody, hu]
      simp [JsVal.field, List.lookup]
    · intro u2 hu2
      have hu3 : u2 = u := by
        rw [hu] at hu2
        cases hu2
        rfl
      subst hu3
      rw [heq, hbody, heff]
      simp [JsVal.field, List.lookup, finishCalls]
    · intro hnone
      rw [hu] at hnone
      cases hnone
  · rw [heq] at h200
    obtain ⟨pd, num, items, newOrder, h1, h2, h3, h4, hbody, heff⟩ :=
      verifyFinish_success o p b d _ _ _ h200
    refine ⟨b, d, vendor, pd, num, items, newOrder, hb, hget, hv, h1, h2, h3, h4, ?_, ?_, ?_⟩
    · rw [heq, hbody, hu]
      simp [JsVal.field, List.lookup]
    · intro u2 hu2
      rw [hu] at hu2
      cases hu2
    · intro _
      refine ⟨saved, hsave, ?_⟩
      rw [heq, heff]
      simp [finishCalls]

/-- Witness of `verify_user_handling`: the demo verification, in which no user has
the phone number, answers `isNewUser = true`. -/
theorem verify_user_handling_witness :
    (verifyVendorPayment demoConfig demoVerifyOracle [("order_1", demoRecord 0)]
        demoVerifyBody).response.status = 200 ∧
      (verifyVendorPayment demoConfig demoVerifyOracle [("order_1", demoRecord 0)]
        demoVerifyBody).response.body.field "isNewUser" = some (.bool true) :=
  match verify_user_handling demoConfig demoVerifyOracle [("order_1", demoRecord 0)]
    demoVerifyBody rfl with
  | ⟨_, _, _, _, _, _, _, _, _, _, _, _, _, _, hiff, _, _⟩ => ⟨rfl, hiff.mpr rfl⟩

/-- C8: create-then-verify round trip.  Let `createVendorRazorpayOrder` succeed
for the body fields `b` with the gateway order `order`, and let
`verifyVendorPayment` run with `razorpay_order_id = order.id` and a valid
signature on a map that still holds the record stored under `order.id`.  Then
every order passed to `Order.create` has `vendorId`, `total`, `collectorName`,
`collectorPhone` and `orderType` of `b`, the items of `b` mapped one by one to
`{ itemId, kind, quantity }`, status "inProgress", `isGuest = true`, and the id of
a payment created with amount `b.total`, status "paid" and
`razorpayOrderId = order.id`; and when every call returns, the vendor is found and
no item is `undefined` or `null`, the run answers 200 and such an order is
created. -/
theorem create_then_verify_order (cfg : Config) (oc : CreateOracle) (p0 : PendingMap)
    (cbody : JsVal) (b : CreateBody) (order : GatewayOrder) (ov : VerifyOracle)
    (p : PendingMap) (vbody : JsVal) (vb : VerifyBody)
    (hc200 : (createVendorRazorpayOrder cfg oc p0 cbody).response.status = 200)
    (hb : readCreateBody cbody = .ok b) (hg : oc.ordersCreate = .ok order)
    (hstill : p.get order.id = (createVendorRazorpayOrder cfg oc p0 cbody).pending.get order.id)
    (hsome : (p.get order.id).isSome = true)
    (hvb : readVerifyBody vbody = .ok vb) (hid : vb.razorpay_order_id = .str order.id)
    (hsig : signatureDiffers cfg vb = false) :
    (∀ doc, Effect.orderCreate doc ∈ (verifyVendorPayment cfg ov p vbody).effects →
      doc.vendorId = b.vendorId ∧ doc.total = b.total ∧ doc.collectorName = b.collectorName ∧
      doc.collectorPhone = b.collectorPhone ∧ doc.orderType = b.orderType ∧
      (∃ xs, b.items = .arr xs ∧ List.Forall₂ itemMapped xs doc.items) ∧
      doc.status = "inProgress" ∧ doc.isGuest = true ∧
      ∃ pay paymentDoc, Effect.paymentCreate pay ∈ (verifyVendorPayment cfg ov p vbody).effects ∧
        ov.paymentCreate = .ok paymentDoc ∧ doc.paymentId = paymentDoc._id ∧
        pay.amount = b.total ∧ pay.status = "paid" ∧ pay.razorpayOrderId = .str order.id) ∧
    (ov.allReturn → (∀ xs, b.items = .arr xs → ∀ x ∈ xs, x ≠ .undefined ∧ x ≠ .null) →
      (verifyVendorPayment cfg ov p vbody).response.status = 200 ∧
      ∃ doc, Effect.orderCreate doc ∈ (verifyVendorPayment cfg ov p vbody).effects) := by
  obtain ⟨b2, v, tail, order2, hb2, _, harr, hne, _, _, _, _, hg2, hpend, _⟩ :=
    create_success cfg oc p0 cbody hc200
  have hbeq : b2 = b := by
    rw [hb2] at hb
    cases hb
    rfl
  have hoeq : order2 = order := by
    rw [hg2] at hg
    cases hg
    rfl
  subst hbeq hoeq
  obtain ⟨xs, hxs, _⟩ := isArray_nonempty _ harr hne
  -- the record found by the verification is the one stored by the creation
  obtain ⟨d, hd⟩ := Option.isSome_iff_exists.mp hsome
  have hrec : d = ⟨b2.vendorId, b2.items, b2.total, b2.collectorName, b2.collectorPhone,
      b2.orderType, oc.nowStored⟩ := by
    have h1 : (createVendorRazorpayOrder cfg oc p0 cbody).pending.get order2.id = some d := by
      rw [← hstill]
      exact hd
    rw [hpend] at h1
    have h2 := PendingMap.get_sweep_some _ _ _ _ h1
    rw [PendingMap.get_set, if_pos rfl] at h2
    cases h2
    rfl
  have hgetVal : p.getVal vb.razorpay_order_id = some d := by
    rw [hid]
    exact hd
  constructor
  · intro doc hdoc
    obtain ⟨vb2, d2, userId, paymentDoc, num, items, hvb2, _, hget2, hpc, _, hitems, hdoceq,
      hpay⟩ := verify_orderCreate cfg ov p vbody doc hdoc
    have hvbeq : vb2 = vb := by
      rw [hvb2] at hvb
      cases hvb
      rfl
    subst hvbeq
    have hdeq : d2 = d := by
      rw [hget2] at hgetVal
      cases hgetVal
      rfl
    subst hdeq
    subst hrec
    subst hdoceq
    refine ⟨rfl, rfl, rfl, rfl, rfl, ⟨xs, hxs, ?_⟩, rfl, rfl, _, paymentDoc, hpay, hpc, rfl, rfl,
      rfl, hid⟩
    simp only [hxs, mapItems] at hitems
    exact mapItemList_ok xs items hitems
  · intro hall hitems
    obtain ⟨ys, hys⟩ := mapItemList_defined xs (hitems xs hxs)
    have hmap : mapItems d.items = .ok ys := by
      rw [hrec]
      simp only [hxs, mapItems]
      exact hys
    have h200 := verify_all_return cfg ov p vbody vb d ys hvb hsig hgetVal hall hmap
    exact ⟨h200, verify_success_orderCreate cfg ov p vbody h200⟩

/-- Witness of `create_then_verify_order`: the demo creation followed by the demo
verification on the map the creation left. -/
theorem create_then_verify_order_witness :
    (createVendorRazorpayOrder demoConfig demoCreateOracle [] demoCreateBody).response.status
        = 200 ∧
      (verifyVendorPayment demoConfig demoVerifyOracle
        (createVendorRazorpayOrder demoConfig demoCreateOracle [] demoCreateBody).pending
        demoVerifyBody).response.status = 200 :=
  have hstored : (PendingMap.get
      (createVendorRazorpayOrder demoConfig demoCreateOracle [] demoCreateBody).pending
      demoGatewayOrder.id).isSome = true := by
    rw [create_stored demoConfig demoCreateOracle [] demoCreateBody demoCreateFields
      demoGatewayOrder (by simp [PendingMap.WF]) (demo_create_status _) rfl rfl (by decide)]
    rfl
  ⟨demo_create_status _,
    ((create_then_verify_order demoConfig demoCreateOracle [] demoCreateBody demoCreateFields
      demoGatewayOrder demoVerifyOracle _ demoVerifyBody demoVerifyFields
      (demo_create_status _) rfl rfl rfl hstored rfl rfl (by decide)).2
      ⟨⟨_, rfl⟩, ⟨_, rfl⟩, ⟨_, rfl⟩, ⟨_, rfl⟩, ⟨_, rfl⟩, ⟨_, rfl⟩, rfl, rfl⟩
      (by
        intro xs hxs x hx
        have hx2 : xs = [demoItem] := by
          have h : demoCreateFields.items = .arr [demoItem] := rfl
          rw [h] at hxs
          cases hxs
          rfl
        subst hx2
        have hx3 : x = demoItem := by simpa using hx
        subst hx3
        exact ⟨by simp [demoItem], by simp [demoItem]⟩)).1⟩

/-! ## The lock manager -/

/-- C7: locks are mutually exclusive per `(vendorId, itemId)`.  Let concurrent
attempts on one key, all made within one TTL window on a key without live lock,
take effect in any order (the order of the list).  Then exactly one succeeds, the
one that takes effect first, and every other one observes `ItemLocked`; and after
any number of them the store has at most one holder with a live lock on the key,
whatever the time of observation. -/
theorem lock_mutual_exclusion (ttl t0 : Nat) (vendorId itemId : String) (s : LockStore)
    (first : Attempt) (others : List Attempt) (hs : s.WF)
    (hfree : ∀ l, s.lookup (vendorId, itemId) = some l → l.expiresAt < t0)
    (hwin : ∀ a ∈ first :: others, t0 ≤ a.time ∧ a.time ≤ t0 + ttl) :
    (runAttempts ttl vendorId itemId s (first :: others)).1 =
        .ok :: others.map (fun _ => .itemLocked itemId) ∧
      ∀ (n now : Nat),
        (LockStore.liveHolders
          (runAttempts ttl vendorId itemId s ((first :: others).take n)).2
          (vendorId, itemId) now).length ≤ 1 := by
  constructor
  · have hw := hwin first (List.mem_cons_self _ _)
    have hget : s.get (vendorId, itemId) first.time = none := by
      unfold LockStore.get
      cases hl : s.lookup (vendorId, itemId) with
      | none => rfl
      | some l =>
        have h1 := hfree l hl
        have : l.live first.time = false := by
          simp only [Lock.live, Bool.not_eq_false', decide_eq_true_eq]
          omega
        simp [Option.filter, this]
    simp only [runAttempts]
    rw [acquire_free ttl s first.time first.holderId vendorId itemId first.quantity hget]
    simp only []
    rw [runAttempts_held ttl t0 vendorId itemId others _
      ⟨itemId, first.holderId, first.time, first.time + ttl, first.quantity⟩
      (LockStore.lookup_put s _ _) (by simp only []; omega)
      (fun a ha => (hwin a (List.mem_cons_of_mem _ ha)).2)]
  · intro n now
    exact LockStore.liveHolders_length _ (WF_runAttempts ttl vendorId itemId _ s hs) _ now

/-- Witness of `lock_mutual_exclusion`: with a TTL of 1800 s, `H1` and `H2` race
for item `I1` of vendor `V1` on an empty store; `H1` gets the lock and `H2`
observes `ItemLocked`. -/
theorem lock_mutual_exclusion_witness :
    LockStore.WF [] ∧
      (runAttempts 1800 "V1" "I1" [] [⟨"H1", 2, 0⟩, ⟨"H2", 1, 10⟩]).1 =
        [.ok, .itemLocked "I1"] :=
  ⟨by simp [LockStore.WF],
    (lock_mutual_exclusion 1800 0 "V1" "I1" [] ⟨"H1", 2, 0⟩ [⟨"H2", 1, 10⟩]
      (by simp [LockStore.WF]) (by simp)
      (by
        intro a ha
        simp only [List.mem_cons, List.mem_singleton, List.not_mem_nil, or_false] at ha
        rcases ha with h | h <;> subst h <;> exact ⟨by decide, by decide⟩)).1⟩

end BitesBay
